import Mathlib

/-!
# tmdout: a shallow embedding of `src/main.c`

`main.c` loads a TMD model file into a byte buffer and prints a report of its
objects and primitives.  The embedding keeps the program's structure:

* the loaded file is a `Buffer` (list of bytes); every scalar the C code reads
  through a pointer is read here with `readU8`/`readU16`/`readU32` at the same
  byte offset from the start of the buffer (the host is little-endian, LP64);
* the C code never compares an address with `bufSize`.  A read at an offset
  `>= bufSize` is undefined behaviour in C; the embedding makes it explicit as
  `Fault.outOfBounds addr`, where `addr` is the first byte outside the buffer
  in the embedding's read order;
* `panic` (print and `exit(1)`) is `Fault.headerIdNonmatching`;
* what the program prints is kept as structured data (`Report`), one field per
  printed value, instead of formatted text;
* `float` values are kept exactly as sign and magnitude (`F32`): every value
  the converter produces has at most 15 significant bits, so the binary32
  operations of the source are exact on them.
-/

namespace Tmd

/-! ## Buffer and scalar reads -/

/-- The file contents copied into `buffer`; its length is `bufSize`. -/
abbrev Buffer := List Nat

/-- Abnormal ways the run can end. -/
inductive Fault where
  /-- Outcome of `panic("File header ID is nonmatching")`, which ends in `exit(1)`. -/
  | headerIdNonmatching
  /-- Undefined behaviour: the program reads the byte at `addr`, outside the buffer. -/
  | outOfBounds (addr : Nat)
deriving DecidableEq, Repr

deriving instance DecidableEq for Except

/-- Computations that read the buffer. -/
abbrev Run := Except Fault

/-- Read of one `u8` at byte offset `a`. -/
def readU8 (buf : Buffer) (a : Nat) : Run Nat :=
  match buf[a]? with
  | some b => .ok (b % 256)
  | none => .error (.outOfBounds a)

/-- Read of one little-endian `u16` at byte offset `a`. -/
def readU16 (buf : Buffer) (a : Nat) : Run Nat := do
  let b0 ← readU8 buf a
  let b1 ← readU8 buf (a + 1)
  pure (b0 + 256 * b1)

/-- Read of one little-endian `u32` at byte offset `a`. -/
def readU32 (buf : Buffer) (a : Nat) : Run Nat := do
  let b0 ← readU8 buf a
  let b1 ← readU8 buf (a + 1)
  let b2 ← readU8 buf (a + 2)
  let b3 ← readU8 buf (a + 3)
  pure (b0 + 256 * b1 + 65536 * b2 + 16777216 * b3)

/-- Two's complement reading of a `w`-bit pattern. -/
def toSigned (w : Nat) (v : Nat) : Int :=
  if v < 2 ^ (w - 1) then (v : Int) else (v : Int) - (2 ^ w : Nat)

/-- Read of one little-endian `s16` at byte offset `a`. -/
def readS16 (buf : Buffer) (a : Nat) : Run Int := do
  let v ← readU16 buf a
  pure (toSigned 16 v)

/-- Read of one little-endian `s32` at byte offset `a`. -/
def readS32 (buf : Buffer) (a : Nat) : Run Int := do
  let v ← readU32 buf a
  pure (toSigned 32 v)

/-! ## Layout constants (`sizeof` of the packed structs) -/

/-- The constant `TMD_HEADER_ID`. -/
def TMD_HEADER_ID : Nat := 0x00000041

/-- Size of `TmdFileHeader`: three `u32`. -/
def sizeofFileHeader : Nat := 12

/-- Size of `TmdObjectHeader`: six `u32` and one `s32`. -/
def sizeofObjectHeader : Nat := 28

/-- Size of `TmdVertex`: three `s16` and one `u16` of padding. -/
def sizeofVertex : Nat := 8

/-- Size of `TmdNormal`: three `u16` and one `u16` of padding. -/
def sizeofNormal : Nat := 8

/-- Size of `TmdPrimitiveHeader`: four `u8`. -/
def sizeofPrimitiveHeader : Nat := 4

/-! ## Fixed-point normals -/

/-- A `float` value held exactly: `sign` is the IEEE sign bit, `mag` the magnitude. -/
structure F32 where
  sign : Bool
  mag : ℚ
deriving DecidableEq

/-- The rational number a float stands for. -/
def F32.toRat (f : F32) : ℚ := if f.sign then -f.mag else f.mag

/-- Unary minus on floats flips the sign bit. -/
def F32.neg (f : F32) : F32 := { f with sign := !f.sign }

/-- The C struct `WorkNormal`. -/
structure WorkNormal where
  x : F32
  y : F32
  z : F32
deriving DecidableEq

/-- Store through `(float*)&workNormal + i`. -/
def WorkNormal.store (w : WorkNormal) (i : Nat) (v : F32) : WorkNormal :=
  match i with
  | 0 => { w with x := v }
  | 1 => { w with y := v }
  | _ => { w with z := v }

/-- Body of the loop of `TmdNormalToWorkNormal` once `fixedPoint` is loaded:
the value left in `*floatingPoint`. -/
def fixedPointToFloat (fixedPoint : Nat) : F32 :=
  let signBit := (fixedPoint >>> 15) &&& 0x1
  let integralPart := (fixedPoint >>> 12) &&& 0x7
  let decimalPart := fixedPoint &&& 0xFFF
  let floatingPoint : F32 := ⟨false, (integralPart : ℚ) + (decimalPart : ℚ) / 4096⟩
  if signBit ≠ 0 then floatingPoint.neg else floatingPoint

/-- The loop `for (i = 0; i < 3; i++)` of `TmdNormalToWorkNormal`, run over the
remaining indices `is`; `tmdNormal` is the byte offset of the record. -/
def normalLoop (buf : Buffer) (tmdNormal : Nat) (workNormal : WorkNormal) :
    List Nat → Run WorkNormal
  | [] => pure workNormal
  | i :: is => do
    let fixedPoint ← readU16 buf (tmdNormal + 2 * i)
    normalLoop buf tmdNormal (workNormal.store i (fixedPointToFloat fixedPoint)) is

/-- The C function `TmdNormalToWorkNormal`, applied to the record at byte offset
`tmdNormal`.  The local `workNormal` starts uninitialised; all three fields
are overwritten, so the start value is immaterial. -/
def TmdNormalToWorkNormal (buf : Buffer) (tmdNormal : Nat) : Run WorkNormal :=
  normalLoop buf tmdNormal ⟨⟨false, 0⟩, ⟨false, 0⟩, ⟨false, 0⟩⟩ [0, 1, 2]

/-! ## Primitive headers and dispatch -/

/-- The C struct `TmdPrimitiveHeader` (four `u8`, in this order in memory). -/
structure TmdPrimitiveHeader where
  olen : Nat
  ilen : Nat
  flag : Nat
  mode : Nat
deriving DecidableEq, Repr

/-- Load of the header fields at byte offset `a`. -/
def readPrimitiveHeader (buf : Buffer) (a : Nat) : Run TmdPrimitiveHeader := do
  let olen ← readU8 buf a
  let ilen ← readU8 buf (a + 1)
  let flag ← readU8 buf (a + 2)
  let mode ← readU8 buf (a + 3)
  pure ⟨olen, ilen, flag, mode⟩

/-- The macro `IS_PRIM_POLYGON`. -/
def IS_PRIM_POLYGON (primHeader : TmdPrimitiveHeader) : Nat :=
  (primHeader.mode >>> 5) &&& 1

/-- The macro `HASH_PRIMITIVE_ATTRIBS`, in `u32` arithmetic. -/
def HASH_PRIMITIVE_ATTRIBS (flag mode : Nat) : Nat :=
  (((flag % 2 ^ 32) * 0x65) % 2 ^ 32 + ((mode % 2 ^ 32) * 0x65) % 2 ^ 32) % 2 ^ 32

/-- The arms of the dispatch `switch` in `main`. -/
inductive Decoder where
  | triangleFlat
  | triangleGouraud
  | lineFlat
  | triangleNonlit
  | triangleNonlitTextured
  | unknown
deriving DecidableEq, Repr

/-- The dispatch `switch`: the arm whose `case` constant equals the hash of the
header's `flag` and `mode`, `default` when none does. -/
def dispatch (primHeader : TmdPrimitiveHeader) : Decoder :=
  let key := HASH_PRIMITIVE_ATTRIBS primHeader.flag primHeader.mode
  if key = HASH_PRIMITIVE_ATTRIBS 0 0x20 then .triangleFlat
  else if key = HASH_PRIMITIVE_ATTRIBS 0 0x30 then .triangleGouraud
  else if key = HASH_PRIMITIVE_ATTRIBS 0 0x40 ∨ key = HASH_PRIMITIVE_ATTRIBS 1 0x40 then .lineFlat
  else if key = HASH_PRIMITIVE_ATTRIBS 1 0x21 then .triangleNonlit
  else if key = HASH_PRIMITIVE_ATTRIBS 1 0x25 then .triangleNonlitTextured
  else .unknown

/-! ## Bit-field macros and label switches -/

/-- The macro `CBA_GET_CBX`. -/
def CBA_GET_CBX (cba : Nat) : Nat := ((cba % 2 ^ 16) >>> 10) &&& 0x3F

/-- The macro `CBA_GET_CBY`. -/
def CBA_GET_CBY (cba : Nat) : Nat := (cba % 2 ^ 16) &&& 0x1FF

/-- The macro `TSB_GET_TPAGE`. -/
def TSB_GET_TPAGE (tsb : Nat) : Nat := (tsb % 2 ^ 16) &&& 0x1F

/-- The macro `TSB_GET_ABR`. -/
def TSB_GET_ABR (tsb : Nat) : Nat := ((tsb % 2 ^ 16) >>> 5) &&& 0x3

/-- The macro `TSB_GET_TPF`. -/
def TSB_GET_TPF (tsb : Nat) : Nat := ((tsb % 2 ^ 16) >>> 7) &&& 0x3

/-- Execution of the arms of a label `switch` in textual order: each arm
assigns its string, and control leaves the `switch` at the first arm that ends
in `break`; an arm without `break` falls into the next. -/
def runArms : List (String × Bool) → String → String
  | [], label => label
  | (text, hasBreak) :: rest, _ => if hasBreak then text else runArms rest text

/-- A label `switch` entered at the arm at position `entry`. -/
def runLabelSwitch (arms : List (String × Bool)) (entry : Nat) (label : String) : String :=
  runArms (arms.drop entry) label

/-- Arms of the `switch` that sets `ABRS`: `case 0` to `case 3`, then `default`. -/
def abrsArms : List (String × Bool) :=
  [("0.5 back + 0.5 poly", true), ("1.0 back + 1.0 poly", false),
   ("1.0 back - 1.0 poly", false), ("1.0 back + 0.25 poly", false), ("Invalid", true)]

/-- Arms of the `switch` that sets `TPFS`: `case 0` to `case 2`, then `default`. -/
def tpfsArms : List (String × Bool) :=
  [("4bit", true), ("8bit", false), ("15bit", false), ("Invalid", true)]

/-- The string left in `ABRS`. -/
def ABRS (tsb : Nat) : String :=
  let code := TSB_GET_ABR tsb
  runLabelSwitch abrsArms (if code < 4 then code else 4) ""

/-- The string left in `TPFS`. -/
def TPFS (tsb : Nat) : String :=
  let code := TSB_GET_TPF tsb
  runLabelSwitch tpfsArms (if code < 3 then code else 3) ""

/-! ## Shape decoders -/

/-- The printed fields of a `TmdVertex` (`%hi`, signed 16-bit). -/
structure Vertex where
  x : Int
  y : Int
  z : Int
deriving DecidableEq, Repr

/-- Load of `x`, `y`, `z` of the `TmdVertex` at byte offset `a`. -/
def readVertex (buf : Buffer) (a : Nat) : Run Vertex := do
  let x ← readS16 buf a
  let y ← readS16 buf (a + 2)
  let z ← readS16 buf (a + 4)
  pure ⟨x, y, z⟩

/-- Three `u8` colour components. -/
structure Rgb where
  r : Nat
  g : Nat
  b : Nat
deriving DecidableEq, Repr

/-- Load of a `u8 rgb[3]` array at byte offset `a`. -/
def readRgb (buf : Buffer) (a : Nat) : Run Rgb := do
  let r ← readU8 buf a
  let g ← readU8 buf (a + 1)
  let b ← readU8 buf (a + 2)
  pure ⟨r, g, b⟩

/-- Load of a `u8 uv[2]` array at byte offset `a`. -/
def readUv (buf : Buffer) (a : Nat) : Run (Nat × Nat) := do
  let u ← readU8 buf a
  let v ← readU8 buf (a + 1)
  pure (u, v)

/-- What one arm of the dispatch `switch` prints. -/
inductive Shape where
  | triangleFlat (rgb : Rgb) (v0 v1 v2 : Vertex)
  | triangleGouraud (rgb : Rgb) (n0 n1 n2 : WorkNormal) (v0 v1 v2 : Vertex)
  | line (rgb : Rgb) (v0 v1 : Vertex)
  | triangleNonlit (rgb : Rgb) (v0 v1 v2 : Vertex)
  | triangleNonlitTextured (uv0 uv1 uv2 : Nat × Nat) (cbx cby tpage : Nat)
      (transparency color : String) (rgb : Rgb) (v0 v1 v2 : Vertex)
  | unknown (ilen olen : Nat)
deriving DecidableEq

/-- Arm `case HASH_PRIMITIVE_ATTRIBS(0, 0x20)`: payload is a `TmdTriangleFlat`
at `data`; `vertices` is the byte offset of the vertex table. -/
def decodeTriangleFlat (buf : Buffer) (vertices data : Nat) : Run Shape := do
  let i0 ← readU16 buf (data + 6)
  let i1 ← readU16 buf (data + 8)
  let i2 ← readU16 buf (data + 10)
  let rgb ← readRgb buf data
  let v0 ← readVertex buf (vertices + sizeofVertex * i0)
  let v1 ← readVertex buf (vertices + sizeofVertex * i1)
  let v2 ← readVertex buf (vertices + sizeofVertex * i2)
  pure (.triangleFlat rgb v0 v1 v2)

/-- Arm `case HASH_PRIMITIVE_ATTRIBS(0, 0x30)`: payload is a `TmdTriangleGouraud`. -/
def decodeTriangleGouraud (buf : Buffer) (vertices normals data : Nat) : Run Shape := do
  let vI0 ← readU16 buf (data + 6)
  let vI1 ← readU16 buf (data + 10)
  let vI2 ← readU16 buf (data + 14)
  let nI0 ← readU16 buf (data + 4)
  let n0 ← TmdNormalToWorkNormal buf (normals + sizeofNormal * nI0)
  let nI1 ← readU16 buf (data + 8)
  let n1 ← TmdNormalToWorkNormal buf (normals + sizeofNormal * nI1)
  let nI2 ← readU16 buf (data + 12)
  let n2 ← TmdNormalToWorkNormal buf (normals + sizeofNormal * nI2)
  let rgb ← readRgb buf data
  let v0 ← readVertex buf (vertices + sizeofVertex * vI0)
  let v1 ← readVertex buf (vertices + sizeofVertex * vI1)
  let v2 ← readVertex buf (vertices + sizeofVertex * vI2)
  pure (.triangleGouraud rgb n0 n1 n2 v0 v1 v2)

/-- Arms `case HASH_PRIMITIVE_ATTRIBS(0, 0x40)` and `(1, 0x40)`: payload is a
`TmdLineFlat`. -/
def decodeLineFlat (buf : Buffer) (vertices data : Nat) : Run Shape := do
  let i0 ← readU16 buf (data + 4)
  let i1 ← readU16 buf (data + 6)
  let rgb ← readRgb buf data
  let v0 ← readVertex buf (vertices + sizeofVertex * i0)
  let v1 ← readVertex buf (vertices + sizeofVertex * i1)
  pure (.line rgb v0 v1)

/-- Arm `case HASH_PRIMITIVE_ATTRIBS(1, 0x21)`: payload is a `TmdTriangleNonlit`. -/
def decodeTriangleNonlit (buf : Buffer) (vertices data : Nat) : Run Shape := do
  let i0 ← readU16 buf (data + 4)
  let i1 ← readU16 buf (data + 6)
  let i2 ← readU16 buf (data + 8)
  let rgb ← readRgb buf data
  let v0 ← readVertex buf (vertices + sizeofVertex * i0)
  let v1 ← readVertex buf (vertices + sizeofVertex * i1)
  let v2 ← readVertex buf (vertices + sizeofVertex * i2)
  pure (.triangleNonlit rgb v0 v1 v2)

/-- Arm `case HASH_PRIMITIVE_ATTRIBS(1, 0x25)`: payload is a
`TmdTriangleNonlitTextured`. -/
def decodeTriangleNonlitTextured (buf : Buffer) (vertices data : Nat) : Run Shape := do
  let i0 ← readU16 buf (data + 16)
  let i1 ← readU16 buf (data + 18)
  let i2 ← readU16 buf (data + 20)
  let cba ← readU16 buf (data + 2)
  let cbx := CBA_GET_CBX cba
  let cby := CBA_GET_CBY cba
  let tsb ← readU16 buf (data + 6)
  let uv0 ← readUv buf data
  let uv1 ← readUv buf (data + 4)
  let uv2 ← readUv buf (data + 8)
  let rgb ← readRgb buf (data + 12)
  let v0 ← readVertex buf (vertices + sizeofVertex * i0)
  let v1 ← readVertex buf (vertices + sizeofVertex * i1)
  let v2 ← readVertex buf (vertices + sizeofVertex * i2)
  pure (.triangleNonlitTextured uv0 uv1 uv2 cbx cby (TSB_GET_TPAGE tsb) (ABRS tsb) (TPFS tsb)
    rgb v0 v1 v2)

/-- The body selected by the dispatch `switch` for the header `primHeader`,
whose payload starts at `data`. -/
def decodeShape (buf : Buffer) (vertices normals : Nat) (primHeader : TmdPrimitiveHeader)
    (data : Nat) : Run Shape :=
  match dispatch primHeader with
  | .triangleFlat => decodeTriangleFlat buf vertices data
  | .triangleGouraud => decodeTriangleGouraud buf vertices normals data
  | .lineFlat => decodeLineFlat buf vertices data
  | .triangleNonlit => decodeTriangleNonlit buf vertices data
  | .triangleNonlitTextured => decodeTriangleNonlitTextured buf vertices data
  | .unknown => pure (.unknown primHeader.ilen primHeader.olen)

/-! ## The primitive walk -/

/-- One printed primitive: the ordinal `j+1`, the `Polygon`/`Line` word, the
header (of which `flag` and `mode` are printed), and the shape lines. -/
structure PrimitiveEntry where
  ordinal : Nat
  isPolygon : Bool
  header : TmdPrimitiveHeader
  shape : Shape
deriving DecidableEq

/-- One iteration of the primitive loop up to the `switch`, with
`currentPrimitiveHeader` at byte offset `cursor` and loop counter `j`. -/
def decodePrimitiveAt (buf : Buffer) (vertices normals cursor j : Nat) : Run PrimitiveEntry := do
  let primHeader ← readPrimitiveHeader buf cursor
  let currentPrimitiveData := cursor + sizeofPrimitiveHeader
  let isPolygon := IS_PRIM_POLYGON primHeader
  let shape ← decodeShape buf vertices normals primHeader currentPrimitiveData
  pure ⟨j + 1, isPolygon ≠ 0, primHeader, shape⟩

/-- The cursor update at the end of an iteration:
`(u8*)(currentPrimitiveHeader + 1) + (currentPrimitiveHeader->ilen * 4)`. -/
def advance (cursor : Nat) (primHeader : TmdPrimitiveHeader) : Nat :=
  cursor + sizeofPrimitiveHeader + primHeader.ilen * 4

/-- The loop `for (j = ...; j < primitiveCount; j++)` with `remaining`
iterations still to run; the result is the printed entries and the final value
of `currentPrimitiveHeader`. -/
def walkPrimitives (buf : Buffer) (vertices normals : Nat) :
    (remaining : Nat) → (j : Nat) → (cursor : Nat) → Run (List PrimitiveEntry × Nat)
  | 0, _, cursor => pure ([], cursor)
  | remaining + 1, j, cursor => do
    let entry ← decodePrimitiveAt buf vertices normals cursor j
    let (entries, final) ← walkPrimitives buf vertices normals remaining (j + 1)
      (advance cursor entry.header)
    pure (entry :: entries, final)

/-! ## Objects and the whole file -/

/-- The C struct `TmdObjectHeader`. -/
structure TmdObjectHeader where
  verticesOffset : Nat
  vertexCount : Nat
  normalsOffset : Nat
  normalCount : Nat
  primitivesOffset : Nat
  primitiveCount : Nat
  scale : Int
deriving DecidableEq, Repr

/-- Load of the seven fields of the object header at byte offset `a`. -/
def readObjectHeader (buf : Buffer) (a : Nat) : Run TmdObjectHeader := do
  let verticesOffset ← readU32 buf a
  let vertexCount ← readU32 buf (a + 4)
  let normalsOffset ← readU32 buf (a + 8)
  let normalCount ← readU32 buf (a + 12)
  let primitivesOffset ← readU32 buf (a + 16)
  let primitiveCount ← readU32 buf (a + 20)
  let scale ← readS32 buf (a + 24)
  pure ⟨verticesOffset, vertexCount, normalsOffset, normalCount, primitivesOffset,
    primitiveCount, scale⟩

/-- Byte offset of `objects + i`, with `objects = (TmdObjectHeader*)(fileHeader + 1)`. -/
def objectHeaderAddr (i : Nat) : Nat := sizeofFileHeader + sizeofObjectHeader * i

/-- Byte offset held by the local `vertices`. -/
def verticesAddr (objectHeader : TmdObjectHeader) : Nat :=
  sizeofFileHeader + objectHeader.verticesOffset

/-- Byte offset held by the local `normals`. -/
def normalsAddr (objectHeader : TmdObjectHeader) : Nat :=
  sizeofFileHeader + objectHeader.normalsOffset

/-- Byte offset held by the local `primitiveSectionStart`. -/
def primitiveSectionStart (objectHeader : TmdObjectHeader) : Nat :=
  sizeofFileHeader + objectHeader.primitivesOffset

/-- What is printed for one object: the ordinal `i+1`, the exponent passed to
`powf`, the three counts and the primitive entries. -/
structure ObjectReport where
  ordinal : Nat
  scale : Int
  vertexCount : Nat
  normalCount : Nat
  primitiveCount : Nat
  primitives : List PrimitiveEntry
deriving DecidableEq

/-- One iteration of the object loop, for loop counter `i`. -/
def decodeObject (buf : Buffer) (i : Nat) : Run ObjectReport := do
  let objectHeader ← readObjectHeader buf (objectHeaderAddr i)
  let vertices := verticesAddr objectHeader
  let normals := normalsAddr objectHeader
  let (primitives, _) ← walkPrimitives buf vertices normals objectHeader.primitiveCount 0
    (primitiveSectionStart objectHeader)
  pure ⟨i + 1, objectHeader.scale, objectHeader.vertexCount, objectHeader.normalCount,
    objectHeader.primitiveCount, primitives⟩

/-- The loop `for (i = ...; i < objectCount; i++)` with `remaining` iterations
still to run. -/
def decodeObjects (buf : Buffer) : (remaining : Nat) → (i : Nat) → Run (List ObjectReport)
  | 0, _ => pure []
  | remaining + 1, i => do
    let object ← decodeObject buf i
    let objects ← decodeObjects buf remaining (i + 1)
    pure (object :: objects)

/-- What a run that reaches `return 0` has printed. -/
structure Report where
  usesPointers : Nat
  objectCount : Nat
  objects : List ObjectReport
deriving DecidableEq

/-- The part of `main` after the file has been loaded into `buffer`: `.ok` is
a run that reaches `return 0`. -/
def decode (buf : Buffer) : Run Report := do
  let id ← readU32 buf 0
  if id ≠ TMD_HEADER_ID then
    throw .headerIdNonmatching
  let usesPointers ← readU32 buf 4
  let objectCount ← readU32 buf 8
  if usesPointers = 0 then
    let objects ← decodeObjects buf objectCount 0
    pure ⟨usesPointers, objectCount, objects⟩
  else
    pure ⟨usesPointers, objectCount, []⟩

/-! ## Auxiliary notions used in the statements -/

/-- A run that does not end in the header panic: it returns, or it reads a byte
outside the buffer. -/
def OnlyOutOfBounds {α : Type} (buf : Buffer) (r : Run α) : Prop :=
  match r with
  | .ok _ => True
  | .error e => ∃ a, buf.length ≤ a ∧ e = .outOfBounds a

/-- Bytes one record occupies in the stream, as the cursor update counts them:
the 4-byte header and `ilen` words of payload. -/
def recordSize (entry : PrimitiveEntry) : Nat := 4 + 4 * entry.header.ilen

/-- The little-endian 32-bit word held in bytes `a` to `a+3` of a buffer (0 for
a byte that is not there). -/
def leWord32 (buf : Buffer) (a : Nat) : Nat :=
  buf.getD a 0 % 256 + 256 * (buf.getD (a + 1) 0 % 256) + 65536 * (buf.getD (a + 2) 0 % 256) +
    16777216 * (buf.getD (a + 3) 0 % 256)


/-! ## Concrete files -/

/-- A normal record without its padding word: `0x1800`, `0x8000`, `0x0FFF`. -/
def normalRecordExample : Buffer := [0x00, 0x18, 0x00, 0x80, 0xFF, 0x0F]

/-- A single-object file with three vertices at byte 40 and three primitive
records back to back from byte 64: tags `(0,0x20)`, `(1,0x40)`, `(0xFF,0xFF)`. -/
def threeRecordFile : Buffer :=
  [0x41, 0, 0, 0, 0, 0, 0, 0, 1, 0, 0, 0,
   28, 0, 0, 0, 3, 0, 0, 0, 52, 0, 0, 0, 0, 0, 0, 0, 52, 0, 0, 0, 3, 0, 0, 0, 0, 0, 0, 0,
   1, 0, 2, 0, 3, 0, 0, 0, 0xFF, 0xFF, 0, 0, 0, 1, 0, 0, 4, 0, 5, 0, 6, 0, 0, 0,
   4, 3, 0, 0x20, 10, 20, 30, 0x20, 0, 0, 0, 0, 1, 0, 2, 0,
   3, 2, 1, 0x40, 40, 50, 60, 0x40, 0, 0, 2, 0,
   7, 1, 0xFF, 0xFF, 0, 0, 0, 0]

/-- A single-object file with two vertices at byte 40 and one primitive record
at byte 56 whose tag is `(flag = 1, mode = 0x3F)`. -/
def collisionFile : Buffer :=
  [0x41, 0, 0, 0, 0, 0, 0, 0, 1, 0, 0, 0,
   28, 0, 0, 0, 2, 0, 0, 0, 44, 0, 0, 0, 0, 0, 0, 0, 44, 0, 0, 0, 1, 0, 0, 0, 0, 0, 0, 0,
   1, 0, 2, 0, 3, 0, 0, 0, 4, 0, 5, 0, 6, 0, 0, 0,
   3, 2, 1, 0x3F, 40, 50, 60, 0x3F, 0, 0, 1, 0]

/-- A 12-byte file: valid magic, pointer flag 1, object count 5. -/
def pointerFile : Buffer := [0x41, 0, 0, 0, 1, 0, 0, 0, 5, 0, 0, 0]

/-- A single-object file with `vertexCount = 2` (vertices at bytes 40..55), one
flat triangle at byte 56 with vertex indices 5, 0, 1, and 16 trailing bytes
(72..87) that belong to no section. -/
def indexFile : Buffer :=
  [0x41, 0, 0, 0, 0, 0, 0, 0, 1, 0, 0, 0,
   28, 0, 0, 0, 2, 0, 0, 0, 44, 0, 0, 0, 0, 0, 0, 0, 44, 0, 0, 0, 1, 0, 0, 0, 0, 0, 0, 0,
   1, 0, 2, 0, 3, 0, 0, 0, 4, 0, 5, 0, 6, 0, 0, 0,
   4, 3, 0, 0x20, 10, 20, 30, 0x20, 0, 0, 5, 0, 0, 0, 1, 0,
   0xAA, 0xAA, 0xAA, 0xAA, 0xAA, 0xAA, 0xAA, 0xAA, 7, 0, 8, 0, 9, 0, 0, 0]

/-- The same file as `indexFile` without the 16 trailing bytes. -/
def indexFileShort : Buffer := indexFile.take 72

/-- A 4-byte file holding only the magic word. -/
def magicOnlyFile : Buffer := [0x41, 0, 0, 0]

/-- A single-object file that ends right after the 4-byte header of its only
primitive record (at byte 40), whose `ilen` is 255 and whose tag is unknown. -/
def truncatedFile : Buffer :=
  [0x41, 0, 0, 0, 0, 0, 0, 0, 1, 0, 0, 0,
   28, 0, 0, 0, 0, 0, 0, 0, 28, 0, 0, 0, 0, 0, 0, 0, 28, 0, 0, 0, 1, 0, 0, 0, 0, 0, 0, 0,
   0, 255, 0xFF, 0xFF]

/-- The three entries printed for `threeRecordFile`. -/
def threeRecordEntries : List PrimitiveEntry :=
  [⟨1, true, ⟨4, 3, 0, 0x20⟩, .triangleFlat ⟨10, 20, 30⟩ ⟨1, 2, 3⟩ ⟨-1, 0, 256⟩ ⟨4, 5, 6⟩⟩,
   ⟨2, false, ⟨3, 2, 1, 0x40⟩, .line ⟨40, 50, 60⟩ ⟨1, 2, 3⟩ ⟨4, 5, 6⟩⟩,
   ⟨3, true, ⟨7, 1, 0xFF, 0xFF⟩, .unknown 1 7⟩]

/-- A single-object file with three vertices at byte 40 and one textured non-lit
triangle at byte 64 (tag `(1, 0x25)`), whose `cba` word is `0x00C5` and whose
`tsb` word is `0x00A3` (page 3, blend code 1, depth code 1). -/
def texturedFile : Buffer :=
  [0x41, 0, 0, 0, 0, 0, 0, 0, 1, 0, 0, 0,
   28, 0, 0, 0, 3, 0, 0, 0, 52, 0, 0, 0, 0, 0, 0, 0, 52, 0, 0, 0, 1, 0, 0, 0, 0, 0, 0, 0,
   1, 0, 2, 0, 3, 0, 0, 0, 0xFF, 0xFF, 0, 0, 0, 1, 0, 0, 4, 0, 5, 0, 6, 0, 0, 0,
   7, 6, 1, 0x25,
   10, 11, 0xC5, 0, 20, 21, 0xA3, 0, 30, 31, 0, 0, 1, 2, 3, 0, 0, 0, 1, 0, 2, 0, 0, 0]

/-! # Theorems -/

/-! ## Lemmas on reads -/

theorem readU8_of_lt (buf : Buffer) (a : Nat) (h : a < buf.length) :
    readU8 buf a = .ok (buf.getD a 0 % 256) := by
  simp [readU8, List.getD, List.getElem?_eq_getElem h]

theorem readU8_of_le (buf : Buffer) (a : Nat) (h : buf.length ≤ a) :
    readU8 buf a = .error (.outOfBounds a) := by
  simp [readU8, List.getElem?_eq_none h]

theorem readU16_of_le (buf : Buffer) (a : Nat) (h : a + 2 ≤ buf.length) :
    readU16 buf a = .ok (buf.getD a 0 % 256 + 256 * (buf.getD (a + 1) 0 % 256)) := by
  simp [readU16, readU8_of_lt buf a (by omega), readU8_of_lt buf (a + 1) (by omega),
    bind, Except.bind, pure, Except.pure]

theorem readU32_of_le (buf : Buffer) (a : Nat) (h : a + 4 ≤ buf.length) :
    readU32 buf a = .ok (buf.getD a 0 % 256 + 256 * (buf.getD (a + 1) 0 % 256) +
      65536 * (buf.getD (a + 2) 0 % 256) + 16777216 * (buf.getD (a + 3) 0 % 256)) := by
  simp [readU32, readU8_of_lt buf a (by omega), readU8_of_lt buf (a + 1) (by omega),
    readU8_of_lt buf (a + 2) (by omega), readU8_of_lt buf (a + 3) (by omega),
    bind, Except.bind, pure, Except.pure]

theorem OnlyOutOfBounds.pure {α : Type} (buf : Buffer) (v : α) :
    OnlyOutOfBounds buf (Pure.pure v : Run α) := trivial

theorem OnlyOutOfBounds.bind {α β : Type} {buf : Buffer} {x : Run α} {f : α → Run β}
    (hx : OnlyOutOfBounds buf x) (hf : ∀ v, OnlyOutOfBounds buf (f v)) :
    OnlyOutOfBounds buf (x >>= f) := by
  cases x with
  | error e => exact hx
  | ok v => exact hf v

theorem readU8_only (buf : Buffer) (a : Nat) : OnlyOutOfBounds buf (readU8 buf a) := by
  by_cases h : a < buf.length
  · rw [readU8_of_lt buf a h]; trivial
  · rw [readU8_of_le buf a (by omega)]; exact ⟨a, by omega, rfl⟩

theorem readU16_only (buf : Buffer) (a : Nat) : OnlyOutOfBounds buf (readU16 buf a) := by
  unfold readU16
  exact .bind (readU8_only _ _) fun _ => .bind (readU8_only _ _) fun _ => .pure _ _

theorem readU32_only (buf : Buffer) (a : Nat) : OnlyOutOfBounds buf (readU32 buf a) := by
  unfold readU32
  exact .bind (readU8_only _ _) fun _ => .bind (readU8_only _ _) fun _ =>
    .bind (readU8_only _ _) fun _ => .bind (readU8_only _ _) fun _ => .pure _ _

theorem readS16_only (buf : Buffer) (a : Nat) : OnlyOutOfBounds buf (readS16 buf a) := by
  unfold readS16
  exact .bind (readU16_only _ _) fun _ => .pure _ _

theorem readS32_only (buf : Buffer) (a : Nat) : OnlyOutOfBounds buf (readS32 buf a) := by
  unfold readS32
  exact .bind (readU32_only _ _) fun _ => .pure _ _

theorem readVertex_only (buf : Buffer) (a : Nat) : OnlyOutOfBounds buf (readVertex buf a) := by
  unfold readVertex
  exact .bind (readS16_only _ _) fun _ => .bind (readS16_only _ _) fun _ =>
    .bind (readS16_only _ _) fun _ => .pure _ _

theorem readRgb_only (buf : Buffer) (a : Nat) : OnlyOutOfBounds buf (readRgb buf a) := by
  unfold readRgb
  exact .bind (readU8_only _ _) fun _ => .bind (readU8_only _ _) fun _ =>
    .bind (readU8_only _ _) fun _ => .pure _ _

theorem readUv_only (buf : Buffer) (a : Nat) : OnlyOutOfBounds buf (readUv buf a) := by
  unfold readUv
  exact .bind (readU8_only _ _) fun _ => .bind (readU8_only _ _) fun _ => .pure _ _

theorem normalLoop_only (buf : Buffer) (a : Nat) (w : WorkNormal) (is : List Nat) :
    OnlyOutOfBounds buf (normalLoop buf a w is) := by
  induction is generalizing w with
  | nil => exact .pure _ _
  | cons i is ih =>
    unfold normalLoop
    exact .bind (readU16_only _ _) fun _ => ih _

theorem TmdNormalToWorkNormal_only (buf : Buffer) (a : Nat) :
    OnlyOutOfBounds buf (TmdNormalToWorkNormal buf a) :=
  normalLoop_only _ _ _ _

theorem readPrimitiveHeader_only (buf : Buffer) (a : Nat) :
    OnlyOutOfBounds buf (readPrimitiveHeader buf a) := by
  unfold readPrimitiveHeader
  exact .bind (readU8_only _ _) fun _ => .bind (readU8_only _ _) fun _ =>
    .bind (readU8_only _ _) fun _ => .bind (readU8_only _ _) fun _ => .pure _ _

theorem decodeShape_only (buf : Buffer) (vertices normals : Nat) (ph : TmdPrimitiveHeader)
    (data : Nat) : OnlyOutOfBounds buf (decodeShape buf vertices normals ph data) := by
  unfold decodeShape
  cases dispatch ph
  · exact .bind (readU16_only _ _) fun _ => .bind (readU16_only _ _) fun _ =>
      .bind (readU16_only _ _) fun _ => .bind (readRgb_only _ _) fun _ =>
      .bind (readVertex_only _ _) fun _ => .bind (readVertex_only _ _) fun _ =>
      .bind (readVertex_only _ _) fun _ => .pure _ _
  · exact .bind (readU16_only _ _) fun _ => .bind (readU16_only _ _) fun _ =>
      .bind (readU16_only _ _) fun _ =>
      .bind (readU16_only _ _) fun _ => .bind (TmdNormalToWorkNormal_only _ _) fun _ =>
      .bind (readU16_only _ _) fun _ => .bind (TmdNormalToWorkNormal_only _ _) fun _ =>
      .bind (readU16_only _ _) fun _ => .bind (TmdNormalToWorkNormal_only _ _) fun _ =>
      .bind (readRgb_only _ _) fun _ =>
      .bind (readVertex_only _ _) fun _ => .bind (readVertex_only _ _) fun _ =>
      .bind (readVertex_only _ _) fun _ => .pure _ _
  · exact .bind (readU16_only _ _) fun _ => .bind (readU16_only _ _) fun _ =>
      .bind (readRgb_only _ _) fun _ =>
      .bind (readVertex_only _ _) fun _ => .bind (readVertex_only _ _) fun _ => .pure _ _
  · exact .bind (readU16_only _ _) fun _ => .bind (readU16_only _ _) fun _ =>
      .bind (readU16_only _ _) fun _ => .bind (readRgb_only _ _) fun _ =>
      .bind (readVertex_only _ _) fun _ => .bind (readVertex_only _ _) fun _ =>
      .bind (readVertex_only _ _) fun _ => .pure _ _
  · exact .bind (readU16_only _ _) fun _ => .bind (readU16_only _ _) fun _ =>
      .bind (readU16_only _ _) fun _ => .bind (readU16_only _ _) fun _ =>
      .bind (readU16_only _ _) fun _ =>
      .bind (readUv_only _ _) fun _ => .bind (readUv_only _ _) fun _ =>
      .bind (readUv_only _ _) fun _ => .bind (readRgb_only _ _) fun _ =>
      .bind (readVertex_only _ _) fun _ => .bind (readVertex_only _ _) fun _ =>
      .bind (readVertex_only _ _) fun _ => .pure _ _
  · exact .pure _ _

theorem decodePrimitiveAt_only (buf : Buffer) (vertices normals cursor j : Nat) :
    OnlyOutOfBounds buf (decodePrimitiveAt buf vertices normals cursor j) := by
  unfold decodePrimitiveAt
  exact .bind (readPrimitiveHeader_only _ _) fun _ => .bind (decodeShape_only _ _ _ _ _) fun _ =>
    .pure _ _

theorem walkPrimitives_only (buf : Buffer) (vertices normals remaining j cursor : Nat) :
    OnlyOutOfBounds buf (walkPrimitives buf vertices normals remaining j cursor) := by
  induction remaining generalizing j cursor with
  | zero => exact .pure _ _
  | succ n ih =>
    unfold walkPrimitives
    exact .bind (decodePrimitiveAt_only _ _ _ _ _) fun _ => .bind (ih _ _) fun _ => .pure _ _

theorem readObjectHeader_only (buf : Buffer) (a : Nat) :
    OnlyOutOfBounds buf (readObjectHeader buf a) := by
  unfold readObjectHeader
  exact .bind (readU32_only _ _) fun _ => .bind (readU32_only _ _) fun _ =>
    .bind (readU32_only _ _) fun _ => .bind (readU32_only _ _) fun _ =>
    .bind (readU32_only _ _) fun _ => .bind (readU32_only _ _) fun _ =>
    .bind (readS32_only _ _) fun _ => .pure _ _

theorem decodeObject_only (buf : Buffer) (i : Nat) : OnlyOutOfBounds buf (decodeObject buf i) := by
  unfold decodeObject
  exact .bind (readObjectHeader_only _ _) fun _ => .bind (walkPrimitives_only _ _ _ _ _ _) fun _ =>
    .pure _ _

theorem decodeObjects_only (buf : Buffer) (remaining i : Nat) :
    OnlyOutOfBounds buf (decodeObjects buf remaining i) := by
  induction remaining generalizing i with
  | zero => exact .pure _ _
  | succ n ih =>
    unfold decodeObjects
    exact .bind (decodeObject_only _ _) fun _ => .bind (ih _) fun _ => .pure _ _




/-! ## Fixed-point converter -/

theorem signBit_ne_zero_iff (w : Nat) : ((w >>> 15) &&& 0x1 ≠ 0) ↔ w.testBit 15 = true := by
  unfold Nat.testBit
  rw [Nat.land_comm]
  simp

theorem fixedPointToFloat_toRat (w : Nat) :
    (fixedPointToFloat w).toRat =
      (if w.testBit 15 then (-1 : ℚ) else 1) *
        ((((w >>> 12) &&& 7 : Nat) : ℚ) + (((w &&& 0xFFF : Nat) : ℚ)) / 4096) := by
  by_cases h : (w >>> 15) &&& 0x1 ≠ 0
  · have ht := (signBit_ne_zero_iff w).1 h
    have hf : fixedPointToFloat w =
        ⟨true, (((w >>> 12) &&& 7 : Nat) : ℚ) + (((w &&& 0xFFF : Nat) : ℚ)) / 4096⟩ := by
      unfold fixedPointToFloat
      dsimp only
      rw [if_pos h]
      rfl
    rw [hf, ht]
    simp [F32.toRat]
  · have ht : w.testBit 15 = false := by
      cases hb : w.testBit 15
      · rfl
      · exact absurd ((signBit_ne_zero_iff w).2 hb) h
    have hf : fixedPointToFloat w =
        ⟨false, (((w >>> 12) &&& 7 : Nat) : ℚ) + (((w &&& 0xFFF : Nat) : ℚ)) / 4096⟩ := by
      unfold fixedPointToFloat
      dsimp only
      rw [if_neg h]
    rw [hf, ht]
    simp [F32.toRat]

theorem normalLoop_three (buf : Buffer) (a wx wy wz : Nat) (w0 : WorkNormal)
    (hx : readU16 buf a = .ok wx) (hy : readU16 buf (a + 2) = .ok wy)
    (hz : readU16 buf (a + 4) = .ok wz) :
    normalLoop buf a w0 [0, 1, 2] =
      .ok ⟨fixedPointToFloat wx, fixedPointToFloat wy, fixedPointToFloat wz⟩ := by
  simp [normalLoop, hx, hy, hz, WorkNormal.store, bind, Except.bind, pure, Except.pure]

/-- C1: when the first three 16-bit words of the normal record at `tmdNormal`
are `wx`, `wy`, `wz`, the converter returns the three components obtained from
them one by one, whatever else the buffer holds (the padding word is not
read); and for every word `w` the component is, as a rational,
`s * (((w >> 12) & 7) + (w & 0xFFF) / 4096)` with `s = -1` when bit 15 of `w`
is set and `s = 1` otherwise. -/
theorem C1_normal_components (buf : Buffer) (tmdNormal wx wy wz : Nat)
    (hx : readU16 buf tmdNormal = .ok wx) (hy : readU16 buf (tmdNormal + 2) = .ok wy)
    (hz : readU16 buf (tmdNormal + 4) = .ok wz) :
    TmdNormalToWorkNormal buf tmdNormal =
        .ok ⟨fixedPointToFloat wx, fixedPointToFloat wy, fixedPointToFloat wz⟩ ∧
      ∀ w : Nat, (fixedPointToFloat w).toRat =
        (if w.testBit 15 then (-1 : ℚ) else 1) *
          ((((w >>> 12) &&& 7 : Nat) : ℚ) + (((w &&& 0xFFF : Nat) : ℚ)) / 4096) :=
  ⟨normalLoop_three buf tmdNormal wx wy wz _ hx hy hz, fixedPointToFloat_toRat⟩

/-- C1 at the 6-byte record `0x1800, 0x8000, 0x0FFF`, which has no padding word. -/
theorem C1_normal_components_witness :
    TmdNormalToWorkNormal normalRecordExample 0 =
        .ok ⟨fixedPointToFloat 0x1800, fixedPointToFloat 0x8000, fixedPointToFloat 0x0FFF⟩ ∧
      ∀ w : Nat, (fixedPointToFloat w).toRat =
        (if w.testBit 15 then (-1 : ℚ) else 1) *
          ((((w >>> 12) &&& 7 : Nat) : ℚ) + (((w &&& 0xFFF : Nat) : ℚ)) / 4096) :=
  C1_normal_components normalRecordExample 0 0x1800 0x8000 0x0FFF (by decide) (by decide)
    (by decide)

/-! ## Dispatch -/

/-- The arm taken depends on `flag` and `mode` only. -/
theorem dispatch_flag_mode (primHeader : TmdPrimitiveHeader) :
    dispatch primHeader = dispatch ⟨0, 0, primHeader.flag, primHeader.mode⟩ := rfl

/-- C2: for each of the six documented tags and every `olen`, `ilen`, the
`switch` selects the documented arm, and the shape decoder run is that arm's:
`(0,0x20)` flat triangle, `(0,0x30)` Gouraud triangle, `(0,0x40)` and
`(1,0x40)` flat line, `(1,0x21)` flat non-lit triangle, `(1,0x25)` textured
non-lit triangle; none reaches `default`. -/
theorem C2_documented_tags (buf : Buffer) (vertices normals data olen ilen : Nat) :
    (dispatch ⟨olen, ilen, 0, 0x20⟩ = .triangleFlat ∧
      dispatch ⟨olen, ilen, 0, 0x30⟩ = .triangleGouraud ∧
      dispatch ⟨olen, ilen, 0, 0x40⟩ = .lineFlat ∧
      dispatch ⟨olen, ilen, 1, 0x40⟩ = .lineFlat ∧
      dispatch ⟨olen, ilen, 1, 0x21⟩ = .triangleNonlit ∧
      dispatch ⟨olen, ilen, 1, 0x25⟩ = .triangleNonlitTextured) ∧
    (decodeShape buf vertices normals ⟨olen, ilen, 0, 0x20⟩ data =
        decodeTriangleFlat buf vertices data ∧
      decodeShape buf vertices normals ⟨olen, ilen, 0, 0x30⟩ data =
        decodeTriangleGouraud buf vertices normals data ∧
      decodeShape buf vertices normals ⟨olen, ilen, 0, 0x40⟩ data =
        decodeLineFlat buf vertices data ∧
      decodeShape buf vertices normals ⟨olen, ilen, 1, 0x40⟩ data =
        decodeLineFlat buf vertices data ∧
      decodeShape buf vertices normals ⟨olen, ilen, 1, 0x21⟩ data =
        decodeTriangleNonlit buf vertices data ∧
      decodeShape buf vertices normals ⟨olen, ilen, 1, 0x25⟩ data =
        decodeTriangleNonlitTextured buf vertices data) := by
  have h1 : dispatch ⟨olen, ilen, 0, 0x20⟩ = .triangleFlat :=
    (dispatch_flag_mode _).trans (show dispatch ⟨0, 0, 0, 0x20⟩ = Decoder.triangleFlat by decide)
  have h2 : dispatch ⟨olen, ilen, 0, 0x30⟩ = .triangleGouraud :=
    (dispatch_flag_mode _).trans (show dispatch ⟨0, 0, 0, 0x30⟩ = Decoder.triangleGouraud by decide)
  have h3 : dispatch ⟨olen, ilen, 0, 0x40⟩ = .lineFlat :=
    (dispatch_flag_mode _).trans (show dispatch ⟨0, 0, 0, 0x40⟩ = Decoder.lineFlat by decide)
  have h4 : dispatch ⟨olen, ilen, 1, 0x40⟩ = .lineFlat :=
    (dispatch_flag_mode _).trans (show dispatch ⟨0, 0, 1, 0x40⟩ = Decoder.lineFlat by decide)
  have h5 : dispatch ⟨olen, ilen, 1, 0x21⟩ = .triangleNonlit :=
    (dispatch_flag_mode _).trans (show dispatch ⟨0, 0, 1, 0x21⟩ = Decoder.triangleNonlit by decide)
  have h6 : dispatch ⟨olen, ilen, 1, 0x25⟩ = .triangleNonlitTextured :=
    (dispatch_flag_mode _).trans (show dispatch ⟨0, 0, 1, 0x25⟩ = Decoder.triangleNonlitTextured by decide)
  refine ⟨⟨h1, h2, h3, h4, h5, h6⟩, ?_⟩
  simp only [decodeShape, h1, h2, h3, h4, h5, h6, and_self]

/-- C3: the tag `(flag = 1, mode = 0x3F)` is none of the six documented tags,
yet its hash equals that of `(0, 0x40)`, the `switch` takes the line arm, and
the record of `collisionFile` is printed as a line with two vertices, not as
`Unknown`. -/
theorem C3_undocumented_tag_decoded_as_line :
    HASH_PRIMITIVE_ATTRIBS 1 0x3F = HASH_PRIMITIVE_ATTRIBS 0 0x40 ∧
    dispatch ⟨3, 2, 1, 0x3F⟩ = .lineFlat ∧
    decode collisionFile = .ok ⟨0, 1, [⟨1, 0, 2, 0, 1,
      [⟨1, true, ⟨3, 2, 1, 0x3F⟩, .line ⟨40, 50, 60⟩ ⟨1, 2, 3⟩ ⟨4, 5, 6⟩⟩]⟩]⟩ := by
  decide

/-! ## The primitive walk -/

theorem decodePrimitiveAt_header (buf : Buffer) (vertices normals cursor j : Nat)
    (e : PrimitiveEntry) (h : decodePrimitiveAt buf vertices normals cursor j = .ok e) :
    readPrimitiveHeader buf cursor = .ok e.header := by
  unfold decodePrimitiveAt at h
  cases hh : readPrimitiveHeader buf cursor with
  | error f => rw [hh] at h; cases h
  | ok ph =>
    rw [hh] at h
    cases hs : decodeShape buf vertices normals ph (cursor + sizeofPrimitiveHeader) with
    | error f => simp [bind, Except.bind, hs] at h
    | ok s =>
      simp [bind, Except.bind, hs, pure, Except.pure] at h
      rw [← h]

theorem walkPrimitives_iff (buf : Buffer) (vertices normals : Nat) :
    ∀ (remaining j cursor : Nat) (entries : List PrimitiveEntry) (final : Nat),
      walkPrimitives buf vertices normals remaining j cursor = .ok (entries, final) ↔
        entries.length = remaining ∧
        final = cursor + (entries.map recordSize).sum ∧
        ∀ (k : Nat) (e : PrimitiveEntry), entries[k]? = some e →
          decodePrimitiveAt buf vertices normals
            (cursor + ((entries.take k).map recordSize).sum) (j + k) = .ok e := by
  intro remaining
  induction remaining with
  | zero =>
    intro j cursor entries final
    simp only [walkPrimitives, pure, Except.pure]
    constructor
    · intro h
      injection h with h
      injection h with h1 h2
      subst h1 h2
      simp
    · rintro ⟨h1, h2, _⟩
      have : entries = [] := List.length_eq_zero.mp h1
      subst this
      simp at h2
      rw [h2]
  | succ n ih =>
    intro j cursor entries final
    unfold walkPrimitives
    cases hd : decodePrimitiveAt buf vertices normals cursor j with
    | error f =>
      simp only [bind, Except.bind]
      constructor
      · intro h; cases h
      · rintro ⟨h1, _, h3⟩
        cases entries with
        | nil => simp at h1
        | cons e es =>
          have := h3 0 e (by simp)
          simp at this
          rw [hd] at this
          cases this
    | ok e0 =>
      cases hw : walkPrimitives buf vertices normals n (j + 1) (advance cursor e0.header) with
      | error f =>
        simp only [bind, Except.bind, hw]
        constructor
        · intro h; cases h
        · rintro ⟨h1, h2, h3⟩
          cases entries with
          | nil => simp at h1
          | cons e es =>
            have h0 := h3 0 e (by simp)
            simp at h0
            rw [hd] at h0
            injection h0 with h0
            subst h0
            have := (ih (j + 1) (advance cursor e0.header) es
              (advance cursor e0.header + (es.map recordSize).sum)).2 ⟨by simpa using h1, rfl, by
                intro k e hk
                have := h3 (k + 1) e (by simpa using hk)
                simp [recordSize, advance, sizeofPrimitiveHeader] at this ⊢
                rw [← this]
                congr 1 <;> omega⟩
            rw [hw] at this
            cases this
      | ok r =>
        obtain ⟨es, fin⟩ := r
        simp only [bind, Except.bind, hw, pure, Except.pure]
        have ih1 := (ih (j + 1) (advance cursor e0.header) es fin).1 hw
        constructor
        · intro h
          injection h with h
          injection h with h1 h2
          subst h1 h2
          refine ⟨by simp [ih1.1], ?_, ?_⟩
          · rw [ih1.2.1]
            simp [recordSize, advance, sizeofPrimitiveHeader]
            omega
          · intro k e hk
            cases k with
            | zero =>
              simp at hk
              subst hk
              simpa using hd
            | succ k =>
              have := ih1.2.2 k e (by simpa using hk)
              simp [recordSize, advance, sizeofPrimitiveHeader] at this ⊢
              rw [← this]
              congr 1 <;> omega
        · rintro ⟨h1, h2, h3⟩
          cases entries with
          | nil => simp at h1
          | cons e es2 =>
            have h0 := h3 0 e (by simp)
            simp at h0
            rw [hd] at h0
            injection h0 with h0
            subst h0
            have := (ih (j + 1) (advance cursor e0.header) es2
              (advance cursor e0.header + (es2.map recordSize).sum)).2 ⟨by simpa using h1, rfl, by
                intro k e hk
                have := h3 (k + 1) e (by simpa using hk)
                simp [recordSize, advance, sizeofPrimitiveHeader] at this ⊢
                rw [← this]
                congr 1 <;> omega⟩
            rw [hw] at this
            injection this with this
            injection this with t1 t2
            subst t1
            rw [h2, t2]
            simp [recordSize, advance, sizeofPrimitiveHeader]
            omega


/-- C4: the walk over an object's primitives returns `entries` and the final
cursor `final` exactly when there are `primitiveCount` entries, the entry
number `k` (from 0) is what one loop iteration decodes with the header at byte
`12 + primitivesOffset + sum over i < k of (4 + 4 * ilen_i)` (and that header
is the entry's), and `final` is `12 + primitivesOffset` plus the sum over all
entries; nothing in this depends on the arm taken.  On `threeRecordFile` the
entries are flat triangle, line, unknown, and the final cursor is
`12 + 52 + (16 + 12 + 8)`. -/
theorem C4_walk_cursor (buf : Buffer) (objectHeader : TmdObjectHeader)
    (entries : List PrimitiveEntry) (final : Nat) :
    (walkPrimitives buf (verticesAddr objectHeader) (normalsAddr objectHeader)
        objectHeader.primitiveCount 0 (primitiveSectionStart objectHeader) = .ok (entries, final) ↔
      entries.length = objectHeader.primitiveCount ∧
      final = 12 + objectHeader.primitivesOffset + (entries.map recordSize).sum ∧
      ∀ (k : Nat) (e : PrimitiveEntry), entries[k]? = some e →
        readPrimitiveHeader buf
            (12 + objectHeader.primitivesOffset + ((entries.take k).map recordSize).sum) =
          .ok e.header ∧
        decodePrimitiveAt buf (verticesAddr objectHeader) (normalsAddr objectHeader)
            (12 + objectHeader.primitivesOffset + ((entries.take k).map recordSize).sum) k =
          .ok e) ∧
    walkPrimitives threeRecordFile 40 64 3 0 64 = .ok ([
      ⟨1, true, ⟨4, 3, 0, 0x20⟩, .triangleFlat ⟨10, 20, 30⟩ ⟨1, 2, 3⟩ ⟨-1, 0, 256⟩ ⟨4, 5, 6⟩⟩,
      ⟨2, false, ⟨3, 2, 1, 0x40⟩, .line ⟨40, 50, 60⟩ ⟨1, 2, 3⟩ ⟨4, 5, 6⟩⟩,
      ⟨3, true, ⟨7, 1, 0xFF, 0xFF⟩, .unknown 1 7⟩], 12 + 52 + (16 + 12 + 8)) ∧
    decode threeRecordFile = .ok ⟨0, 1, [⟨1, 0, 3, 0, 3, [
      ⟨1, true, ⟨4, 3, 0, 0x20⟩, .triangleFlat ⟨10, 20, 30⟩ ⟨1, 2, 3⟩ ⟨-1, 0, 256⟩ ⟨4, 5, 6⟩⟩,
      ⟨2, false, ⟨3, 2, 1, 0x40⟩, .line ⟨40, 50, 60⟩ ⟨1, 2, 3⟩ ⟨4, 5, 6⟩⟩,
      ⟨3, true, ⟨7, 1, 0xFF, 0xFF⟩, .unknown 1 7⟩]⟩]⟩ := by
  refine ⟨?_, by decide, by decide⟩
  rw [walkPrimitives_iff]
  simp only [primitiveSectionStart, sizeofFileHeader, Nat.zero_add]
  constructor
  · rintro ⟨h1, h2, h3⟩
    exact ⟨h1, h2, fun k e hk => ⟨decodePrimitiveAt_header _ _ _ _ _ _ (h3 k e hk), h3 k e hk⟩⟩
  · rintro ⟨h1, h2, h3⟩
    exact ⟨h1, h2, fun k e hk => (h3 k e hk).2⟩

/-! ## The file header -/

theorem readU32_eq_leWord32 (buf : Buffer) (a : Nat) (h : a + 4 ≤ buf.length) :
    readU32 buf a = .ok (leWord32 buf a) := readU32_of_le buf a h

theorem readU32_of_gt (buf : Buffer) (a : Nat) (h : buf.length < a + 4) :
    ∃ b, buf.length ≤ b ∧ readU32 buf a = .error (.outOfBounds b) := by
  unfold readU32
  by_cases h0 : a < buf.length
  · rw [readU8_of_lt buf a h0]
    by_cases h1 : a + 1 < buf.length
    · rw [readU8_of_lt buf (a + 1) h1]
      by_cases h2 : a + 2 < buf.length
      · rw [readU8_of_lt buf (a + 2) h2, readU8_of_le buf (a + 3) (by omega)]
        exact ⟨a + 3, by omega, rfl⟩
      · rw [readU8_of_le buf (a + 2) (by omega)]
        exact ⟨a + 2, by omega, rfl⟩
    · rw [readU8_of_le buf (a + 1) (by omega)]
      exact ⟨a + 1, by omega, rfl⟩
  · rw [readU8_of_le buf a (by omega)]
    exact ⟨a, by omega, rfl⟩

theorem readPrimitiveHeader_of_gt (buf : Buffer) (a : Nat) (h : buf.length < a + 4) :
    ∃ b, buf.length ≤ b ∧ readPrimitiveHeader buf a = .error (.outOfBounds b) := by
  unfold readPrimitiveHeader
  by_cases h0 : a < buf.length
  · rw [readU8_of_lt buf a h0]
    by_cases h1 : a + 1 < buf.length
    · rw [readU8_of_lt buf (a + 1) h1]
      by_cases h2 : a + 2 < buf.length
      · rw [readU8_of_lt buf (a + 2) h2, readU8_of_le buf (a + 3) (by omega)]
        exact ⟨a + 3, by omega, rfl⟩
      · rw [readU8_of_le buf (a + 2) (by omega)]
        exact ⟨a + 2, by omega, rfl⟩
    · rw [readU8_of_le buf (a + 1) (by omega)]
      exact ⟨a + 1, by omega, rfl⟩
  · rw [readU8_of_le buf a (by omega)]
    exact ⟨a, by omega, rfl⟩

theorem decode_of_header (buf : Buffer) (h : 12 ≤ buf.length) :
    decode buf =
      if leWord32 buf 0 ≠ TMD_HEADER_ID then .error .headerIdNonmatching
      else if leWord32 buf 4 = 0 then
        decodeObjects buf (leWord32 buf 8) 0 >>= fun objects =>
          pure ⟨leWord32 buf 4, leWord32 buf 8, objects⟩
      else .ok ⟨leWord32 buf 4, leWord32 buf 8, []⟩ := by
  unfold decode
  rw [readU32_eq_leWord32 buf 0 (by omega), readU32_eq_leWord32 buf 4 (by omega),
    readU32_eq_leWord32 buf 8 (by omega)]
  by_cases h0 : leWord32 buf 0 = TMD_HEADER_ID
  · by_cases h1 : leWord32 buf 4 = 0
    · simp [h0, h1, bind, Except.bind, pure, Except.pure]
    · simp [h0, h1, bind, Except.bind, pure, Except.pure]
  · simp [h0, bind, Except.bind, throw, throwThe, MonadExceptOf.throw]

theorem decode_of_id_ne (buf : Buffer) (h : 4 ≤ buf.length)
    (h0 : leWord32 buf 0 ≠ TMD_HEADER_ID) : decode buf = .error .headerIdNonmatching := by
  unfold decode
  rw [readU32_eq_leWord32 buf 0 (by omega)]
  simp [h0, bind, Except.bind, throw, throwThe, MonadExceptOf.throw]

theorem decode_of_id_eq (buf : Buffer) (h : 12 ≤ buf.length)
    (h0 : leWord32 buf 0 = TMD_HEADER_ID) : decode buf ≠ .error .headerIdNonmatching := by
  rw [decode_of_header buf h, if_neg (not_not.mpr h0)]
  intro hd
  by_cases h1 : leWord32 buf 4 = 0
  · rw [if_pos h1] at hd
    have := decodeObjects_only buf (leWord32 buf 8) 0
    cases hobj : decodeObjects buf (leWord32 buf 8) 0 with
    | error e =>
      rw [hobj] at this hd
      obtain ⟨a, _, ha⟩ := this
      simp [bind, Except.bind] at hd
      rw [hd] at ha
      cases ha
    | ok v =>
      rw [hobj] at hd
      simp [bind, Except.bind, pure, Except.pure] at hd
  · rw [if_neg h1] at hd
    cases hd

/-- C5: for a buffer of at least 12 bytes, the run ends in the panic
"File header ID is nonmatching" exactly when the little-endian word at byte 0
differs from `0x00000041`; and when it differs the run returns no report (no
object, vertex, normal or primitive is decoded). -/
theorem C5_header_mismatch (buf : Buffer) (h : 12 ≤ buf.length) :
    (decode buf = .error .headerIdNonmatching ↔ leWord32 buf 0 ≠ 0x00000041) ∧
    (leWord32 buf 0 ≠ 0x00000041 → ∀ report, decode buf ≠ .ok report) := by
  constructor
  · constructor
    · intro hd h0
      exact decode_of_id_eq buf h h0 hd
    · intro h0
      exact decode_of_id_ne buf (by omega) h0
  · intro h0 report hr
    rw [decode_of_id_ne buf (by omega) h0] at hr
    cases hr

theorem leWord32_take (buf : Buffer) (n a : Nat) (h : a + 4 ≤ n) :
    leWord32 (buf.take n) a = leWord32 buf a := by
  unfold leWord32
  have e : ∀ k, k < n → (buf.take n).getD k 0 = buf.getD k 0 := by
    intro k hk
    simp [List.getD_eq_getElem?_getD, List.getElem?_take, hk]
  rw [e a (by omega), e (a + 1) (by omega), e (a + 2) (by omega), e (a + 3) (by omega)]

/-- C5 at `threeRecordFile` (100 bytes, valid magic). -/
theorem C5_header_mismatch_witness :
    (decode threeRecordFile = .error .headerIdNonmatching ↔
      leWord32 threeRecordFile 0 ≠ 0x00000041) ∧
    (leWord32 threeRecordFile 0 ≠ 0x00000041 → ∀ report, decode threeRecordFile ≠ .ok report) :=
  C5_header_mismatch threeRecordFile (by decide)

/-- C6 (amended): for a buffer of at least 12 bytes with a valid magic and a
nonzero pointer flag, the run completes (reaches `return 0`) with an empty
object list, and the same run on the first 12 bytes alone gives the same
result: no object header and no object section is read. -/
theorem C6_pointer_variant (buf : Buffer) (h : 12 ≤ buf.length)
    (hid : leWord32 buf 0 = 0x00000041) (hp : leWord32 buf 4 ≠ 0) :
    decode buf = .ok ⟨leWord32 buf 4, leWord32 buf 8, []⟩ ∧
    decode (buf.take 12) = decode buf := by
  have hid2 : leWord32 buf 0 = TMD_HEADER_ID := hid
  have h1 : decode buf = .ok ⟨leWord32 buf 4, leWord32 buf 8, []⟩ := by
    rw [decode_of_header buf h, if_neg (not_not.mpr hid2), if_neg hp]
  refine ⟨h1, ?_⟩
  have hl : 12 ≤ (buf.take 12).length := by simp [h]
  rw [h1, decode_of_header _ hl, leWord32_take buf 12 0 (by omega),
    leWord32_take buf 12 4 (by omega), leWord32_take buf 12 8 (by omega),
    if_neg (not_not.mpr hid2), if_neg hp]

/-- C6 (amended) at `pointerFile`. -/
theorem C6_pointer_variant_witness :
    decode pointerFile = .ok ⟨leWord32 pointerFile 4, leWord32 pointerFile 8, []⟩ ∧
    decode (pointerFile.take 12) = decode pointerFile :=
  C6_pointer_variant pointerFile (by decide) (by decide) (by decide)

/-- C6 as stated fails: on `pointerFile` (valid magic, pointer flag 1) the run
completes successfully instead of stopping with a failure. -/
theorem C6_pointer_file_completes : decode pointerFile = .ok ⟨1, 5, []⟩ := by decide

/-- C7: for the object header read at `12 + 28 * i`, the vertex, normal and
primitive section addresses are `12 + verticesOffset`, `12 + normalsOffset`
and `12 + primitivesOffset`, and the object iteration walks the primitives
with exactly these addresses: none depends on `i`. -/
theorem C7_section_addresses (buf : Buffer) (i : Nat) (objectHeader : TmdObjectHeader)
    (h : readObjectHeader buf (12 + 28 * i) = .ok objectHeader) :
    verticesAddr objectHeader = 12 + objectHeader.verticesOffset ∧
    normalsAddr objectHeader = 12 + objectHeader.normalsOffset ∧
    primitiveSectionStart objectHeader = 12 + objectHeader.primitivesOffset ∧
    decodeObject buf i =
      (walkPrimitives buf (12 + objectHeader.verticesOffset) (12 + objectHeader.normalsOffset)
        objectHeader.primitiveCount 0 (12 + objectHeader.primitivesOffset)).map
        fun r => ⟨i + 1, objectHeader.scale, objectHeader.vertexCount, objectHeader.normalCount,
          objectHeader.primitiveCount, r.1⟩ := by
  refine ⟨rfl, rfl, rfl, ?_⟩
  unfold decodeObject
  have h2 : readObjectHeader buf (objectHeaderAddr i) = .ok objectHeader := h
  rw [h2]
  simp only [bind, Except.bind, verticesAddr, normalsAddr, primitiveSectionStart, sizeofFileHeader]
  cases walkPrimitives buf (12 + objectHeader.verticesOffset) (12 + objectHeader.normalsOffset)
      objectHeader.primitiveCount 0 (12 + objectHeader.primitivesOffset) with
  | error e => rfl
  | ok r => rfl

/-- C7 at object 0 of `threeRecordFile`. -/
theorem C7_section_addresses_witness :
    verticesAddr ⟨28, 3, 52, 0, 52, 3, 0⟩ = 12 + 28 ∧
    normalsAddr ⟨28, 3, 52, 0, 52, 3, 0⟩ = 12 + 52 ∧
    primitiveSectionStart ⟨28, 3, 52, 0, 52, 3, 0⟩ = 12 + 52 ∧
    decodeObject threeRecordFile 0 =
      (walkPrimitives threeRecordFile (12 + 28) (12 + 52) 3 0 (12 + 52)).map
        fun r => ⟨0 + 1, 0, 3, 0, 3, r.1⟩ :=
  C7_section_addresses threeRecordFile 0 ⟨28, 3, 52, 0, 52, 3, 0⟩ (by decide)

/-! ## Unchecked indices and bounds -/

theorem decodeTriangleFlat_iff (buf : Buffer) (oh : TmdObjectHeader) (data i0 i1 i2 : Nat)
    (shape : Shape)
    (h0 : readU16 buf (data + 6) = .ok i0) (h1 : readU16 buf (data + 8) = .ok i1)
    (h2 : readU16 buf (data + 10) = .ok i2) :
    decodeTriangleFlat buf (verticesAddr oh) data = .ok shape ↔
      ∃ rgb v0 v1 v2, readRgb buf data = .ok rgb ∧
        readVertex buf (12 + oh.verticesOffset + 8 * i0) = .ok v0 ∧
        readVertex buf (12 + oh.verticesOffset + 8 * i1) = .ok v1 ∧
        readVertex buf (12 + oh.verticesOffset + 8 * i2) = .ok v2 ∧
        shape = .triangleFlat rgb v0 v1 v2 := by
  unfold decodeTriangleFlat
  rw [h0, h1, h2]
  simp only [verticesAddr, sizeofFileHeader, sizeofVertex, bind, Except.bind, pure, Except.pure]
  cases readRgb buf data <;>
    cases readVertex buf (12 + oh.verticesOffset + 8 * i0) <;>
    cases readVertex buf (12 + oh.verticesOffset + 8 * i1) <;>
    cases readVertex buf (12 + oh.verticesOffset + 8 * i2) <;>
    simp [eq_comm]

theorem decodeTriangleGouraud_iff (buf : Buffer) (oh : TmdObjectHeader)
    (data vI0 vI1 vI2 nI0 nI1 nI2 : Nat) (shape : Shape)
    (h0 : readU16 buf (data + 6) = .ok vI0) (h1 : readU16 buf (data + 10) = .ok vI1)
    (h2 : readU16 buf (data + 14) = .ok vI2) (g0 : readU16 buf (data + 4) = .ok nI0)
    (g1 : readU16 buf (data + 8) = .ok nI1) (g2 : readU16 buf (data + 12) = .ok nI2) :
    decodeTriangleGouraud buf (verticesAddr oh) (normalsAddr oh) data = .ok shape ↔
      ∃ rgb n0 n1 n2 v0 v1 v2, readRgb buf data = .ok rgb ∧
        TmdNormalToWorkNormal buf (12 + oh.normalsOffset + 8 * nI0) = .ok n0 ∧
        TmdNormalToWorkNormal buf (12 + oh.normalsOffset + 8 * nI1) = .ok n1 ∧
        TmdNormalToWorkNormal buf (12 + oh.normalsOffset + 8 * nI2) = .ok n2 ∧
        readVertex buf (12 + oh.verticesOffset + 8 * vI0) = .ok v0 ∧
        readVertex buf (12 + oh.verticesOffset + 8 * vI1) = .ok v1 ∧
        readVertex buf (12 + oh.verticesOffset + 8 * vI2) = .ok v2 ∧
        shape = .triangleGouraud rgb n0 n1 n2 v0 v1 v2 := by
  unfold decodeTriangleGouraud
  rw [h0, h1, h2]
  simp only [verticesAddr, normalsAddr, sizeofFileHeader, sizeofVertex, sizeofNormal, bind,
    Except.bind, pure, Except.pure, g0, g1, g2]
  cases TmdNormalToWorkNormal buf (12 + oh.normalsOffset + 8 * nI0) <;>
    cases TmdNormalToWorkNormal buf (12 + oh.normalsOffset + 8 * nI1) <;>
    cases TmdNormalToWorkNormal buf (12 + oh.normalsOffset + 8 * nI2) <;>
    cases readRgb buf data <;>
    cases readVertex buf (12 + oh.verticesOffset + 8 * vI0) <;>
    cases readVertex buf (12 + oh.verticesOffset + 8 * vI1) <;>
    cases readVertex buf (12 + oh.verticesOffset + 8 * vI2) <;>
    simp [eq_comm]

theorem decodeLineFlat_iff (buf : Buffer) (oh : TmdObjectHeader) (data i0 i1 : Nat)
    (shape : Shape)
    (h0 : readU16 buf (data + 4) = .ok i0) (h1 : readU16 buf (data + 6) = .ok i1) :
    decodeLineFlat buf (verticesAddr oh) data = .ok shape ↔
      ∃ rgb v0 v1, readRgb buf data = .ok rgb ∧
        readVertex buf (12 + oh.verticesOffset + 8 * i0) = .ok v0 ∧
        readVertex buf (12 + oh.verticesOffset + 8 * i1) = .ok v1 ∧
        shape = .line rgb v0 v1 := by
  unfold decodeLineFlat
  rw [h0, h1]
  simp only [verticesAddr, sizeofFileHeader, sizeofVertex, bind, Except.bind, pure, Except.pure]
  cases readRgb buf data <;>
    cases readVertex buf (12 + oh.verticesOffset + 8 * i0) <;>
    cases readVertex buf (12 + oh.verticesOffset + 8 * i1) <;>
    simp [eq_comm]

theorem decodeTriangleNonlit_iff (buf : Buffer) (oh : TmdObjectHeader) (data i0 i1 i2 : Nat)
    (shape : Shape)
    (h0 : readU16 buf (data + 4) = .ok i0) (h1 : readU16 buf (data + 6) = .ok i1)
    (h2 : readU16 buf (data + 8) = .ok i2) :
    decodeTriangleNonlit buf (verticesAddr oh) data = .ok shape ↔
      ∃ rgb v0 v1 v2, readRgb buf data = .ok rgb ∧
        readVertex buf (12 + oh.verticesOffset + 8 * i0) = .ok v0 ∧
        readVertex buf (12 + oh.verticesOffset + 8 * i1) = .ok v1 ∧
        readVertex buf (12 + oh.verticesOffset + 8 * i2) = .ok v2 ∧
        shape = .triangleNonlit rgb v0 v1 v2 := by
  unfold decodeTriangleNonlit
  rw [h0, h1, h2]
  simp only [verticesAddr, sizeofFileHeader, sizeofVertex, bind, Except.bind, pure, Except.pure]
  cases readRgb buf data <;>
    cases readVertex buf (12 + oh.verticesOffset + 8 * i0) <;>
    cases readVertex buf (12 + oh.verticesOffset + 8 * i1) <;>
    cases readVertex buf (12 + oh.verticesOffset + 8 * i2) <;>
    simp [eq_comm]

theorem decodeTriangleNonlitTextured_iff (buf : Buffer) (oh : TmdObjectHeader)
    (data i0 i1 i2 cba tsb : Nat) (shape : Shape)
    (h0 : readU16 buf (data + 16) = .ok i0) (h1 : readU16 buf (data + 18) = .ok i1)
    (h2 : readU16 buf (data + 20) = .ok i2) (hc : readU16 buf (data + 2) = .ok cba)
    (ht : readU16 buf (data + 6) = .ok tsb) :
    decodeTriangleNonlitTextured buf (verticesAddr oh) data = .ok shape ↔
      ∃ uv0 uv1 uv2 rgb v0 v1 v2, readUv buf data = .ok uv0 ∧
        readUv buf (data + 4) = .ok uv1 ∧ readUv buf (data + 8) = .ok uv2 ∧
        readRgb buf (data + 12) = .ok rgb ∧
        readVertex buf (12 + oh.verticesOffset + 8 * i0) = .ok v0 ∧
        readVertex buf (12 + oh.verticesOffset + 8 * i1) = .ok v1 ∧
        readVertex buf (12 + oh.verticesOffset + 8 * i2) = .ok v2 ∧
        shape = .triangleNonlitTextured uv0 uv1 uv2 (CBA_GET_CBX cba) (CBA_GET_CBY cba)
          (TSB_GET_TPAGE tsb) (ABRS tsb) (TPFS tsb) rgb v0 v1 v2 := by
  unfold decodeTriangleNonlitTextured
  rw [h0, h1, h2]
  simp only [verticesAddr, sizeofFileHeader, sizeofVertex, bind, Except.bind, pure, Except.pure,
    hc, ht]
  cases readUv buf data <;> cases readUv buf (data + 4) <;> cases readUv buf (data + 8) <;>
    cases readRgb buf (data + 12) <;>
    cases readVertex buf (12 + oh.verticesOffset + 8 * i0) <;>
    cases readVertex buf (12 + oh.verticesOffset + 8 * i1) <;>
    cases readVertex buf (12 + oh.verticesOffset + 8 * i2) <;>
    simp [eq_comm]

theorem walkPrimitives_succ_of_ok (buf : Buffer) (vertices normals remaining j cursor : Nat)
    (e : PrimitiveEntry) (h : decodePrimitiveAt buf vertices normals cursor j = .ok e) :
    walkPrimitives buf vertices normals (remaining + 1) j cursor =
      (walkPrimitives buf vertices normals remaining (j + 1) (cursor + 4 + 4 * e.header.ilen)).map
        fun r => (e :: r.1, r.2) := by
  rw [walkPrimitives, h]
  simp only [bind, Except.bind, advance, sizeofPrimitiveHeader, Nat.mul_comm e.header.ilen 4]
  cases walkPrimitives buf vertices normals remaining (j + 1) (cursor + 4 + 4 * e.header.ilen) with
  | error f => rfl
  | ok r => rfl

theorem decodeObjects_succ_of_ok (buf : Buffer) (remaining i : Nat) (object : ObjectReport)
    (h : decodeObject buf i = .ok object) :
    decodeObjects buf (remaining + 1) i =
      (decodeObjects buf remaining (i + 1)).map fun objects => object :: objects := by
  rw [decodeObjects, h]
  simp only [bind, Except.bind]
  cases decodeObjects buf remaining (i + 1) with
  | error f => rfl
  | ok r => rfl

theorem decode_of_offsets (buf : Buffer) (h : 12 ≤ buf.length)
    (hid : leWord32 buf 0 = 0x00000041) (hp : leWord32 buf 4 = 0) :
    decode buf =
      (decodeObjects buf (leWord32 buf 8) 0).map fun objects =>
        ⟨0, leWord32 buf 8, objects⟩ := by
  have hid2 : leWord32 buf 0 = TMD_HEADER_ID := hid
  rw [decode_of_header buf h, if_neg (not_not.mpr hid2), if_pos hp, hp]
  simp only [bind, Except.bind]
  cases decodeObjects buf (leWord32 buf 8) 0 with
  | error f => rfl
  | ok r => rfl

/-- C8 (amended): every arm for a recognised tag uses each vertex index (and,
in the Gouraud arm, each normal index) as read, with no comparison to
`vertexCount` or `normalCount`: the arm succeeds exactly when the bytes at
`12 + verticesOffset + 8 * index` (`12 + normalsOffset + 8 * index`) and its
other fields can be read, and then prints the bytes found there, whatever the
index.  Once an entry is decoded, the rest of the walk is the walk from the
advanced cursor; once an object is decoded, the rest of the object loop is the
loop from the next object index; and the run over a file with a valid magic
and a zero pointer flag is that loop over `objectCount` objects from index 0. -/
theorem C8_indices_unchecked :
    (∀ (buf : Buffer) (oh : TmdObjectHeader) (data i0 i1 i2 : Nat) (shape : Shape),
      readU16 buf (data + 6) = .ok i0 → readU16 buf (data + 8) = .ok i1 →
      readU16 buf (data + 10) = .ok i2 →
      (decodeTriangleFlat buf (verticesAddr oh) data = .ok shape ↔
        ∃ rgb v0 v1 v2, readRgb buf data = .ok rgb ∧
          readVertex buf (12 + oh.verticesOffset + 8 * i0) = .ok v0 ∧
          readVertex buf (12 + oh.verticesOffset + 8 * i1) = .ok v1 ∧
          readVertex buf (12 + oh.verticesOffset + 8 * i2) = .ok v2 ∧
          shape = .triangleFlat rgb v0 v1 v2)) ∧
    (∀ (buf : Buffer) (oh : TmdObjectHeader) (data vI0 vI1 vI2 nI0 nI1 nI2 : Nat)
      (shape : Shape),
      readU16 buf (data + 6) = .ok vI0 → readU16 buf (data + 10) = .ok vI1 →
      readU16 buf (data + 14) = .ok vI2 → readU16 buf (data + 4) = .ok nI0 →
      readU16 buf (data + 8) = .ok nI1 → readU16 buf (data + 12) = .ok nI2 →
      (decodeTriangleGouraud buf (verticesAddr oh) (normalsAddr oh) data = .ok shape ↔
        ∃ rgb n0 n1 n2 v0 v1 v2, readRgb buf data = .ok rgb ∧
          TmdNormalToWorkNormal buf (12 + oh.normalsOffset + 8 * nI0) = .ok n0 ∧
          TmdNormalToWorkNormal buf (12 + oh.normalsOffset + 8 * nI1) = .ok n1 ∧
          TmdNormalToWorkNormal buf (12 + oh.normalsOffset + 8 * nI2) = .ok n2 ∧
          readVertex buf (12 + oh.verticesOffset + 8 * vI0) = .ok v0 ∧
          readVertex buf (12 + oh.verticesOffset + 8 * vI1) = .ok v1 ∧
          readVertex buf (12 + oh.verticesOffset + 8 * vI2) = .ok v2 ∧
          shape = .triangleGouraud rgb n0 n1 n2 v0 v1 v2)) ∧
    (∀ (buf : Buffer) (oh : TmdObjectHeader) (data i0 i1 : Nat) (shape : Shape),
      readU16 buf (data + 4) = .ok i0 → readU16 buf (data + 6) = .ok i1 →
      (decodeLineFlat buf (verticesAddr oh) data = .ok shape ↔
        ∃ rgb v0 v1, readRgb buf data = .ok rgb ∧
          readVertex buf (12 + oh.verticesOffset + 8 * i0) = .ok v0 ∧
          readVertex buf (12 + oh.verticesOffset + 8 * i1) = .ok v1 ∧
          shape = .line rgb v0 v1)) ∧
    (∀ (buf : Buffer) (oh : TmdObjectHeader) (data i0 i1 i2 : Nat) (shape : Shape),
      readU16 buf (data + 4) = .ok i0 → readU16 buf (data + 6) = .ok i1 →
      readU16 buf (data + 8) = .ok i2 →
      (decodeTriangleNonlit buf (verticesAddr oh) data = .ok shape ↔
        ∃ rgb v0 v1 v2, readRgb buf data = .ok rgb ∧
          readVertex buf (12 + oh.verticesOffset + 8 * i0) = .ok v0 ∧
          readVertex buf (12 + oh.verticesOffset + 8 * i1) = .ok v1 ∧
          readVertex buf (12 + oh.verticesOffset + 8 * i2) = .ok v2 ∧
          shape = .triangleNonlit rgb v0 v1 v2)) ∧
    (∀ (buf : Buffer) (oh : TmdObjectHeader) (data i0 i1 i2 cba tsb : Nat) (shape : Shape),
      readU16 buf (data + 16) = .ok i0 → readU16 buf (data + 18) = .ok i1 →
      readU16 buf (data + 20) = .ok i2 → readU16 buf (data + 2) = .ok cba →
      readU16 buf (data + 6) = .ok tsb →
      (decodeTriangleNonlitTextured buf (verticesAddr oh) data = .ok shape ↔
        ∃ uv0 uv1 uv2 rgb v0 v1 v2, readUv buf data = .ok uv0 ∧
          readUv buf (data + 4) = .ok uv1 ∧ readUv buf (data + 8) = .ok uv2 ∧
          readRgb buf (data + 12) = .ok rgb ∧
          readVertex buf (12 + oh.verticesOffset + 8 * i0) = .ok v0 ∧
          readVertex buf (12 + oh.verticesOffset + 8 * i1) = .ok v1 ∧
          readVertex buf (12 + oh.verticesOffset + 8 * i2) = .ok v2 ∧
          shape = .triangleNonlitTextured uv0 uv1 uv2 (CBA_GET_CBX cba) (CBA_GET_CBY cba)
            (TSB_GET_TPAGE tsb) (ABRS tsb) (TPFS tsb) rgb v0 v1 v2)) ∧
    (∀ (buf : Buffer) (vertices normals remaining j cursor : Nat) (e : PrimitiveEntry),
      decodePrimitiveAt buf vertices normals cursor j = .ok e →
      walkPrimitives buf vertices normals (remaining + 1) j cursor =
        (walkPrimitives buf vertices normals remaining (j + 1)
          (cursor + 4 + 4 * e.header.ilen)).map fun r => (e :: r.1, r.2)) ∧
    (∀ (buf : Buffer) (remaining i : Nat) (object : ObjectReport),
      decodeObject buf i = .ok object →
      decodeObjects buf (remaining + 1) i =
        (decodeObjects buf remaining (i + 1)).map fun objects => object :: objects) ∧
    (∀ (buf : Buffer) (i : Nat), decodeObjects buf 0 i = .ok []) ∧
    (∀ (buf : Buffer), 12 ≤ buf.length → leWord32 buf 0 = 0x00000041 → leWord32 buf 4 = 0 →
      decode buf =
        (decodeObjects buf (leWord32 buf 8) 0).map fun objects =>
          ⟨0, leWord32 buf 8, objects⟩) :=
  ⟨fun buf oh data i0 i1 i2 shape h0 h1 h2 =>
      decodeTriangleFlat_iff buf oh data i0 i1 i2 shape h0 h1 h2,
    fun buf oh data vI0 vI1 vI2 nI0 nI1 nI2 shape h0 h1 h2 g0 g1 g2 =>
      decodeTriangleGouraud_iff buf oh data vI0 vI1 vI2 nI0 nI1 nI2 shape h0 h1 h2 g0 g1 g2,
    fun buf oh data i0 i1 shape h0 h1 => decodeLineFlat_iff buf oh data i0 i1 shape h0 h1,
    fun buf oh data i0 i1 i2 shape h0 h1 h2 =>
      decodeTriangleNonlit_iff buf oh data i0 i1 i2 shape h0 h1 h2,
    fun buf oh data i0 i1 i2 cba tsb shape h0 h1 h2 hc ht =>
      decodeTriangleNonlitTextured_iff buf oh data i0 i1 i2 cba tsb shape h0 h1 h2 hc ht,
    fun buf vertices normals remaining j cursor e h =>
      walkPrimitives_succ_of_ok buf vertices normals remaining j cursor e h,
    fun buf remaining i object h => decodeObjects_succ_of_ok buf remaining i object h,
    fun _ _ => rfl,
    fun buf h hid hp => decode_of_offsets buf h hid hp⟩

/-- C8 (amended) at the flat triangle of `indexFile`, whose object has
`vertexCount = 2` and whose first vertex index is 5. -/
theorem C8_indices_unchecked_witness :
    decodeTriangleFlat indexFile (verticesAddr ⟨28, 2, 44, 0, 44, 1, 0⟩) 60 =
        .ok (.triangleFlat ⟨10, 20, 30⟩ ⟨7, 8, 9⟩ ⟨1, 2, 3⟩ ⟨4, 5, 6⟩) ↔
      ∃ rgb v0 v1 v2, readRgb indexFile 60 = .ok rgb ∧
        readVertex indexFile (12 + 28 + 8 * 5) = .ok v0 ∧
        readVertex indexFile (12 + 28 + 8 * 0) = .ok v1 ∧
        readVertex indexFile (12 + 28 + 8 * 1) = .ok v2 ∧
        Shape.triangleFlat ⟨10, 20, 30⟩ ⟨7, 8, 9⟩ ⟨1, 2, 3⟩ ⟨4, 5, 6⟩ =
          .triangleFlat rgb v0 v1 v2 :=
  C8_indices_unchecked.1 indexFile ⟨28, 2, 44, 0, 44, 1, 0⟩ 60 5 0 1 _ (by decide) (by decide)
    (by decide)

/-- C8 as stated fails: the object of `indexFile` has `vertexCount = 2` and its
sole primitive names vertex index 5; the run reports no error and prints as
first vertex the bytes at `12 + 28 + 8 * 5 = 80`, which lie in no section.  On
the same file cut after the primitive (`indexFileShort`, 72 bytes) the vertex
at bytes 80..85 is read outside the buffer. -/
theorem C8_index_five_is_read :
    decode indexFile = .ok ⟨0, 1, [⟨1, 0, 2, 0, 1,
      [⟨1, true, ⟨4, 3, 0, 0x20⟩,
        .triangleFlat ⟨10, 20, 30⟩ ⟨7, 8, 9⟩ ⟨1, 2, 3⟩ ⟨4, 5, 6⟩⟩]⟩]⟩ ∧
    indexFileShort.length = 72 ∧
    ∃ a, 80 ≤ a ∧ a ≤ 85 ∧ decode indexFileShort = .error (.outOfBounds a) :=
  ⟨by decide, by decide, 80, by decide, by decide, by decide⟩

theorem decode_of_short (buf : Buffer) (h : buf.length < 12)
    (hn : ¬(4 ≤ buf.length ∧ leWord32 buf 0 ≠ TMD_HEADER_ID)) :
    ∃ a, buf.length ≤ a ∧ decode buf = .error (.outOfBounds a) := by
  unfold decode
  by_cases h4 : 4 ≤ buf.length
  · have h0 : leWord32 buf 0 = TMD_HEADER_ID := by
      by_contra hne
      exact hn ⟨h4, hne⟩
    rw [readU32_eq_leWord32 buf 0 (by omega)]
    by_cases h8 : 8 ≤ buf.length
    · obtain ⟨a, ha, hr⟩ := readU32_of_gt buf 8 (by omega)
      rw [readU32_eq_leWord32 buf 4 (by omega), hr]
      exact ⟨a, ha, by simp [h0, bind, Except.bind, pure, Except.pure]⟩
    · obtain ⟨a, ha, hr⟩ := readU32_of_gt buf 4 (by omega)
      rw [hr]
      exact ⟨a, ha, by simp [h0, bind, Except.bind, pure, Except.pure]⟩
  · obtain ⟨a, ha, hr⟩ := readU32_of_gt buf 0 (by omega)
    rw [hr]
    exact ⟨a, ha, rfl⟩

/-- C9 (amended): for a buffer shorter than 12 bytes, the run ends in the
header panic when the buffer holds at least 4 bytes and its first word is not
the magic (only bytes 0..3 are read); in every other case (fewer than 4
bytes, or a valid magic) the run reads a byte at an index at or beyond the
buffer length. -/
theorem C9_short_buffer (buf : Buffer) (h : buf.length < 12) :
    (4 ≤ buf.length ∧ leWord32 buf 0 ≠ 0x00000041 →
      decode buf = .error .headerIdNonmatching) ∧
    (¬(4 ≤ buf.length ∧ leWord32 buf 0 ≠ 0x00000041) →
      ∃ a, buf.length ≤ a ∧ decode buf = .error (.outOfBounds a)) :=
  ⟨fun hc => decode_of_id_ne buf hc.1 hc.2, fun hn => decode_of_short buf h hn⟩

/-- C9 (amended) at the 5-byte buffer `42 00 00 00 09`. -/
theorem C9_short_buffer_witness :
    [0x42, 0, 0, 0, 9].length < 12 ∧ decode [0x42, 0, 0, 0, 9] = .error .headerIdNonmatching :=
  ⟨by decide, (C9_short_buffer [0x42, 0, 0, 0, 9] (by decide)).1 (by decide)⟩

/-- C9 as stated fails: `magicOnlyFile` has 4 bytes; the run does not end in
the header panic but reads the byte at index 4, beyond the buffer. -/
theorem C9_magic_only_reads_past_end :
    magicOnlyFile.length = 4 ∧ decode magicOnlyFile = .error (.outOfBounds 4) := by
  decide

theorem walkPrimitives_of_header_gt (buf : Buffer) (vertices normals remaining j cursor : Nat)
    (h : buf.length < cursor + 4) :
    ∃ a, buf.length ≤ a ∧
      walkPrimitives buf vertices normals (remaining + 1) j cursor = .error (.outOfBounds a) := by
  obtain ⟨a, ha, hr⟩ := readPrimitiveHeader_of_gt buf cursor h
  refine ⟨a, ha, ?_⟩
  unfold walkPrimitives decodePrimitiveAt
  rw [hr]
  rfl

theorem walkPrimitives_error (buf : Buffer) (vertices normals remaining j cursor : Nat)
    (e : Fault) (h : walkPrimitives buf vertices normals remaining j cursor = .error e) :
    ∃ a, buf.length ≤ a ∧ e = .outOfBounds a := by
  have := walkPrimitives_only buf vertices normals remaining j cursor
  rw [h] at this
  exact this

theorem walkPrimitives_last_of_ok (buf : Buffer) (vertices normals j cursor : Nat)
    (e : PrimitiveEntry) (h : decodePrimitiveAt buf vertices normals cursor j = .ok e) :
    walkPrimitives buf vertices normals 1 j cursor =
      .ok ([e], cursor + (4 + 4 * e.header.ilen)) := by
  rw [walkPrimitives_succ_of_ok buf vertices normals 0 j cursor e h, walkPrimitives]
  simp [Except.map, pure, Except.pure, Nat.add_assoc]

/-- C10 (amended): the walk has no bounds check.  When the 4-byte header at
the cursor does not lie inside the buffer and an iteration is still to run,
the walk reads a byte at an index at or beyond the buffer length; the only way
any walk ends abnormally is such a read; and the position of an advanced
cursor is never compared with the buffer length: a walk completes as soon as
each of its records decodes at the prefix-sum cursor, with the final cursor
the start plus all record sizes, and in particular a last record that decodes
ends the walk at `cursor + 4 + 4 * ilen`, also when that is past the end of
the buffer. -/
theorem C10_walk_unchecked (buf : Buffer) (vertices normals remaining j cursor : Nat)
    (h : buf.length < cursor + 4) :
    (∃ a, buf.length ≤ a ∧
      walkPrimitives buf vertices normals (remaining + 1) j cursor = .error (.outOfBounds a)) ∧
    (∀ (count j2 cursor2 : Nat) (e : Fault),
      walkPrimitives buf vertices normals count j2 cursor2 = .error e →
        ∃ a, buf.length ≤ a ∧ e = .outOfBounds a) ∧
    (∀ (count j2 cursor2 : Nat) (entries : List PrimitiveEntry),
      entries.length = count →
      (∀ (k : Nat) (e : PrimitiveEntry), entries[k]? = some e →
        decodePrimitiveAt buf vertices normals
          (cursor2 + ((entries.take k).map recordSize).sum) (j2 + k) = .ok e) →
      walkPrimitives buf vertices normals count j2 cursor2 =
        .ok (entries, cursor2 + (entries.map recordSize).sum)) ∧
    (∀ (j2 cursor2 : Nat) (e : PrimitiveEntry),
      decodePrimitiveAt buf vertices normals cursor2 j2 = .ok e →
      walkPrimitives buf vertices normals 1 j2 cursor2 =
        .ok ([e], cursor2 + (4 + 4 * e.header.ilen))) :=
  ⟨walkPrimitives_of_header_gt buf vertices normals remaining j cursor h,
    fun count j2 cursor2 e he => walkPrimitives_error buf vertices normals count j2 cursor2 e he,
    fun count j2 cursor2 entries hl hd =>
      (walkPrimitives_iff buf vertices normals count j2 cursor2 entries _).2 ⟨hl, rfl, hd⟩,
    fun j2 cursor2 e he => walkPrimitives_last_of_ok buf vertices normals j2 cursor2 e he⟩

/-- C10 (amended) at the 44-byte `truncatedFile` with the cursor at 41: the
header at 41..44 does not fit, and the last record, decoded at 40, ends the
walk at 1064. -/
theorem C10_walk_unchecked_witness :
    (∃ a, truncatedFile.length ≤ a ∧
      walkPrimitives truncatedFile 40 40 (0 + 1) 0 41 = .error (.outOfBounds a)) ∧
    walkPrimitives truncatedFile 40 40 1 0 40 =
      .ok ([⟨1, true, ⟨0, 255, 0xFF, 0xFF⟩, .unknown 255 0⟩], 40 + (4 + 4 * 255)) :=
  ⟨(C10_walk_unchecked truncatedFile 40 40 0 0 41 (by decide)).1,
    (C10_walk_unchecked truncatedFile 40 40 0 0 41 (by decide)).2.2.2 0 40
      ⟨1, true, ⟨0, 255, 0xFF, 0xFF⟩, .unknown 255 0⟩ (by decide)⟩

/-- C10 as stated fails: `truncatedFile` has 44 bytes and its only record, at
byte 40, has `ilen = 255`; the advance moves the cursor to 1064, past the end
of the buffer, and the run completes with no failure. -/
theorem C10_advance_past_end_completes :
    truncatedFile.length = 44 ∧
    walkPrimitives truncatedFile 40 40 1 0 40 =
      .ok ([⟨1, true, ⟨0, 255, 0xFF, 0xFF⟩, .unknown 255 0⟩], 1064) ∧
    decode truncatedFile = .ok ⟨0, 1, [⟨1, 0, 0, 0, 1,
      [⟨1, true, ⟨0, 255, 0xFF, 0xFF⟩, .unknown 255 0⟩]⟩]⟩ := by
  decide

/-! ## Range, zero and round trip of the fixed-point converter -/

theorem land_4095 (w : Nat) : w &&& 0xFFF = w % 4096 :=
  Nat.and_pow_two_sub_one_eq_mod w 12

theorem land_32767 (w : Nat) : w &&& 0x7FFF = w % 32768 :=
  Nat.and_pow_two_sub_one_eq_mod w 15

theorem land_7 (w : Nat) : w &&& 0x7 = w % 8 :=
  Nat.and_pow_two_sub_one_eq_mod w 3

theorem land_1 (w : Nat) : w &&& 0x1 = w % 2 :=
  Nat.and_pow_two_sub_one_eq_mod w 1

theorem land_3 (w : Nat) : w &&& 0x3 = w % 4 :=
  Nat.and_pow_two_sub_one_eq_mod w 2

theorem land_31 (w : Nat) : w &&& 0x1F = w % 32 :=
  Nat.and_pow_two_sub_one_eq_mod w 5

theorem land_63 (w : Nat) : w &&& 0x3F = w % 64 :=
  Nat.and_pow_two_sub_one_eq_mod w 6

theorem land_511 (w : Nat) : w &&& 0x1FF = w % 512 :=
  Nat.and_pow_two_sub_one_eq_mod w 9

theorem shiftRight_div (w n : Nat) : w >>> n = w / 2 ^ n := Nat.shiftRight_eq_div_pow w n

/-- The three bit fields of a fixed-point word, in arithmetic form. -/
theorem fixedPoint_fields (w : Nat) :
    (w >>> 15) &&& 0x1 = w / 32768 % 2 ∧ (w >>> 12) &&& 0x7 = w / 4096 % 8 ∧
      w &&& 0xFFF = w % 4096 := by
  refine ⟨?_, ?_, land_4095 w⟩
  · rw [land_1, shiftRight_div]; norm_num
  · rw [land_7, shiftRight_div]; norm_num

theorem fixedPointToFloat_mag (w : Nat) :
    (fixedPointToFloat w).mag = ((w / 4096 % 8 : Nat) : ℚ) + ((w % 4096 : Nat) : ℚ) / 4096 := by
  obtain ⟨_, h2, h3⟩ := fixedPoint_fields w
  unfold fixedPointToFloat
  dsimp only
  split <;> simp [F32.neg, h2, h3]

theorem fixedPointToFloat_sign (w : Nat) :
    (fixedPointToFloat w).sign = decide (w / 32768 % 2 = 1) := by
  obtain ⟨h1, _, _⟩ := fixedPoint_fields w
  unfold fixedPointToFloat
  dsimp only
  rw [h1]
  have : w / 32768 % 2 = 0 ∨ w / 32768 % 2 = 1 := by omega
  rcases this with h | h <;> simp [h, F32.neg]


theorem fixedPointToFloat_eq (w : Nat) :
    fixedPointToFloat w =
      ⟨decide (w / 32768 % 2 = 1),
        ((w / 4096 % 8 : Nat) : ℚ) + ((w % 4096 : Nat) : ℚ) / 4096⟩ := by
  have hs := fixedPointToFloat_sign w
  have hm := fixedPointToFloat_mag w
  cases hf : fixedPointToFloat w with
  | mk s m =>
    rw [hf] at hs hm
    simp only at hs hm
    rw [hs, hm]

theorem fixedPointToFloat_mag_bounds (w : Nat) :
    0 ≤ (fixedPointToFloat w).mag ∧ (fixedPointToFloat w).mag < 8 ∧
      4096 * (fixedPointToFloat w).mag = ((4096 * (w / 4096 % 8) + w % 4096 : Nat) : ℚ) := by
  rw [fixedPointToFloat_mag]
  have ha : ((w / 4096 % 8 : Nat) : ℚ) ≤ 7 := by
    have : w / 4096 % 8 ≤ 7 := by omega
    exact_mod_cast this
  have hb : ((w % 4096 : Nat) : ℚ) ≤ 4095 := by
    have : w % 4096 ≤ 4095 := by omega
    exact_mod_cast this
  have ha0 : (0 : ℚ) ≤ ((w / 4096 % 8 : Nat) : ℚ) := Nat.cast_nonneg _
  have hb0 : (0 : ℚ) ≤ ((w % 4096 : Nat) : ℚ) := Nat.cast_nonneg _
  refine ⟨by positivity, ?_, ?_⟩
  · have : ((w % 4096 : Nat) : ℚ) / 4096 < 1 := by
      rw [div_lt_one (by norm_num)]
      linarith
    linarith
  · push_cast
    ring

theorem fixedPointToFloat_range (w : Nat) :
    -8 ≤ (fixedPointToFloat w).toRat ∧ (fixedPointToFloat w).toRat < 8 ∧
      ∃ n : ℤ, 4096 * (fixedPointToFloat w).toRat = n := by
  obtain ⟨h0, h8, hm⟩ := fixedPointToFloat_mag_bounds w
  unfold F32.toRat
  split
  · refine ⟨by linarith, by linarith, -((4096 * (w / 4096 % 8) + w % 4096 : Nat) : ℤ), ?_⟩
    rw [mul_neg, hm, Int.cast_neg, Int.cast_natCast]
  · refine ⟨by linarith, h8, ((4096 * (w / 4096 % 8) + w % 4096 : Nat) : ℤ), ?_⟩
    rw [hm, Int.cast_natCast]

theorem TmdNormalToWorkNormal_ok (buf : Buffer) (a : Nat) (n : WorkNormal)
    (h : TmdNormalToWorkNormal buf a = .ok n) :
    ∃ wx wy wz, readU16 buf a = .ok wx ∧ readU16 buf (a + 2) = .ok wy ∧
      readU16 buf (a + 4) = .ok wz ∧
      n = ⟨fixedPointToFloat wx, fixedPointToFloat wy, fixedPointToFloat wz⟩ := by
  cases hx : readU16 buf a with
  | error e => simp [TmdNormalToWorkNormal, normalLoop, hx, bind, Except.bind] at h
  | ok wx =>
    cases hy : readU16 buf (a + 2) with
    | error e => simp [TmdNormalToWorkNormal, normalLoop, hx, hy, bind, Except.bind] at h
    | ok wy =>
      cases hz : readU16 buf (a + 4) with
      | error e => simp [TmdNormalToWorkNormal, normalLoop, hx, hy, hz, bind, Except.bind] at h
      | ok wz =>
        refine ⟨wx, wy, wz, rfl, rfl, rfl, ?_⟩
        have := normalLoop_three buf a wx wy wz ⟨⟨false, 0⟩, ⟨false, 0⟩, ⟨false, 0⟩⟩ hx hy hz
        unfold TmdNormalToWorkNormal at h
        rw [this] at h
        injection h with h
        exact h.symm

/-- C11: for every word `w` the value `v` the converter produces satisfies
`-8 <= v < 8` and `4096 * v` is an integer; the same holds for each component
of every normal `TmdNormalToWorkNormal` returns. -/
theorem C11_converter_range :
    (∀ w : Nat, -8 ≤ (fixedPointToFloat w).toRat ∧ (fixedPointToFloat w).toRat < 8 ∧
      ∃ n : ℤ, 4096 * (fixedPointToFloat w).toRat = n) ∧
    (∀ (buf : Buffer) (tmdNormal : Nat) (n : WorkNormal),
      TmdNormalToWorkNormal buf tmdNormal = .ok n →
        ∀ c ∈ [n.x, n.y, n.z], -8 ≤ c.toRat ∧ c.toRat < 8 ∧ ∃ k : ℤ, 4096 * c.toRat = k) := by
  refine ⟨fixedPointToFloat_range, ?_⟩
  intro buf a n h c hc
  obtain ⟨wx, wy, wz, _, _, _, hn⟩ := TmdNormalToWorkNormal_ok buf a n h
  subst hn
  simp only [List.mem_cons, List.mem_singleton, List.not_mem_nil, or_false] at hc
  rcases hc with rfl | rfl | rfl <;> exact fixedPointToFloat_range _

theorem fixedPointToFloat_mag_eq_zero_iff (w : Nat) :
    (fixedPointToFloat w).mag = 0 ↔ w &&& 0x7FFF = 0 := by
  rw [fixedPointToFloat_mag, land_32767]
  have ha0 : (0 : ℚ) ≤ ((w / 4096 % 8 : Nat) : ℚ) := Nat.cast_nonneg _
  have hb0 : (0 : ℚ) ≤ ((w % 4096 : Nat) : ℚ) / 4096 := by positivity
  constructor
  · intro h
    have h1 : ((w / 4096 % 8 : Nat) : ℚ) = 0 := by linarith
    have h2 : ((w % 4096 : Nat) : ℚ) / 4096 = 0 := by linarith
    have h3 : ((w % 4096 : Nat) : ℚ) = 0 := by
      rcases div_eq_zero_iff.mp h2 with h | h
      · exact h
      · norm_num at h
    have h1n : w / 4096 % 8 = 0 := by exact_mod_cast h1
    have h3n : w % 4096 = 0 := by exact_mod_cast h3
    omega
  · intro h
    have h1n : w / 4096 % 8 = 0 := by omega
    have h3n : w % 4096 = 0 := by omega
    rw [h1n, h3n]
    simp

/-- C12: the converter maps `0x0000` to magnitude zero with the sign bit clear
and `0x8000` to magnitude zero with the sign bit set (negative zero); the
magnitude is zero exactly when `w & 0x7FFF = 0`, so among 16-bit words only
`0x0000` and `0x8000` convert to a zero magnitude. -/
theorem C12_zero_words :
    fixedPointToFloat 0x0000 = ⟨false, 0⟩ ∧ fixedPointToFloat 0x8000 = ⟨true, 0⟩ ∧
    (∀ w : Nat, (fixedPointToFloat w).mag = 0 ↔ w &&& 0x7FFF = 0) ∧
    (∀ w : Nat, w < 65536 →
      ((fixedPointToFloat w).mag = 0 ↔ w = 0x0000 ∨ w = 0x8000)) := by
  refine ⟨?_, ?_, fixedPointToFloat_mag_eq_zero_iff, ?_⟩
  · rw [fixedPointToFloat_eq]
    norm_num
  · rw [fixedPointToFloat_eq]
    norm_num
  · intro w hw
    rw [fixedPointToFloat_mag_eq_zero_iff, land_32767]
    omega

theorem fixedPointToFloat_of_lt (f : Nat) (h : f < 4096) :
    fixedPointToFloat f = ⟨false, (f : ℚ) / 4096⟩ := by
  have h1 : f / 32768 % 2 = 0 := by omega
  have h2 : f / 4096 % 8 = 0 := by omega
  have h3 : f % 4096 = f := by omega
  rw [fixedPointToFloat_eq, h1, h2, h3]
  simp

/-- C13: for fractional codes `f`, `g` in `0..4095`, multiplying the converted
value of `f` by 4096 and taking the integer part gives `f` back, and equal
converted values come from equal codes. -/
theorem C13_fraction_round_trip (f g : Nat) (hf : f < 4096) (hg : g < 4096) :
    ⌊(fixedPointToFloat f).toRat * 4096⌋ = (f : ℤ) ∧
    ((fixedPointToFloat f).toRat = (fixedPointToFloat g).toRat → f = g) := by
  rw [fixedPointToFloat_of_lt f hf, fixedPointToFloat_of_lt g hg]
  simp only [F32.toRat, Bool.false_eq_true, if_false]
  constructor
  · rw [div_mul_cancel₀ _ (by norm_num : (4096 : ℚ) ≠ 0)]
    exact Int.floor_natCast f
  · intro h
    field_simp at h
    exact_mod_cast h

/-- C13 at the codes 4095 and 1. -/
theorem C13_fraction_round_trip_witness :
    ⌊(fixedPointToFloat 4095).toRat * 4096⌋ = ((4095 : Nat) : ℤ) ∧
    ((fixedPointToFloat 4095).toRat = (fixedPointToFloat 1).toRat → 4095 = 1) :=
  C13_fraction_round_trip 4095 1 (by decide) (by decide)

/-! ## Bit-field extractors -/

theorem CBA_GET_CBX_eq (cba : Nat) : CBA_GET_CBX cba = cba % 65536 / 1024 % 64 := by
  unfold CBA_GET_CBX
  rw [land_63, shiftRight_div]
  norm_num

theorem CBA_GET_CBY_eq (cba : Nat) : CBA_GET_CBY cba = cba % 65536 % 512 := by
  unfold CBA_GET_CBY
  rw [land_511]
  norm_num

theorem TSB_GET_TPAGE_eq (tsb : Nat) : TSB_GET_TPAGE tsb = tsb % 65536 % 32 := by
  unfold TSB_GET_TPAGE
  rw [land_31]
  norm_num

theorem TSB_GET_ABR_eq (tsb : Nat) : TSB_GET_ABR tsb = tsb % 65536 / 32 % 4 := by
  unfold TSB_GET_ABR
  rw [land_3, shiftRight_div]
  norm_num

theorem TSB_GET_TPF_eq (tsb : Nat) : TSB_GET_TPF tsb = tsb % 65536 / 128 % 4 := by
  unfold TSB_GET_TPF
  rw [land_3, shiftRight_div]
  norm_num

/-- C14: for every 16-bit word `w`, `CBA_GET_CBX w` is `w / 1024` (below 64)
and `CBA_GET_CBY w` is `w mod 512`. -/
theorem C14_clut_fields (w : Nat) (h : w < 65536) :
    CBA_GET_CBX w = w / 1024 ∧ CBA_GET_CBX w < 64 ∧ CBA_GET_CBY w = w % 512 := by
  rw [CBA_GET_CBX_eq, CBA_GET_CBY_eq]
  omega

/-- C14 at the word `0xABCD`. -/
theorem C14_clut_fields_witness :
    CBA_GET_CBX 0xABCD = 0xABCD / 1024 ∧ CBA_GET_CBX 0xABCD < 64 ∧
      CBA_GET_CBY 0xABCD = 0xABCD % 512 :=
  C14_clut_fields 0xABCD (by decide)

/-- C15: for `tpage < 32`, `abr < 4`, `tpf < 4` and any upper bits `h`, the
three extractors applied to `tpage + (abr << 5) + (tpf << 7) + (h << 9)` give
back `tpage`, `abr` and `tpf`. -/
theorem C15_tsb_round_trip (tpage abr tpf h : Nat) (h1 : tpage < 32) (h2 : abr < 4)
    (h3 : tpf < 4) :
    TSB_GET_TPAGE (tpage + (abr <<< 5) + (tpf <<< 7) + (h <<< 9)) = tpage ∧
    TSB_GET_ABR (tpage + (abr <<< 5) + (tpf <<< 7) + (h <<< 9)) = abr ∧
    TSB_GET_TPF (tpage + (abr <<< 5) + (tpf <<< 7) + (h <<< 9)) = tpf := by
  rw [TSB_GET_TPAGE_eq, TSB_GET_ABR_eq, TSB_GET_TPF_eq]
  simp only [Nat.shiftLeft_eq]
  norm_num
  omega

/-- C15 at `tpage = 31`, `abr = 2`, `tpf = 1`, `h = 127`. -/
theorem C15_tsb_round_trip_witness :
    TSB_GET_TPAGE (31 + (2 <<< 5) + (1 <<< 7) + (127 <<< 9)) = 31 ∧
    TSB_GET_ABR (31 + (2 <<< 5) + (1 <<< 7) + (127 <<< 9)) = 2 ∧
    TSB_GET_TPF (31 + (2 <<< 5) + (1 <<< 7) + (127 <<< 9)) = 1 :=
  C15_tsb_round_trip 31 2 1 127 (by decide) (by decide) (by decide)


/-! ## Labels, hash and polarity -/

theorem bind_eq_ok {α β : Type} (x : Run α) (f : α → Run β) (b : β) :
    (x >>= f) = .ok b ↔ ∃ a, x = .ok a ∧ f a = .ok b := by
  cases x with
  | error e => simp [bind, Except.bind]
  | ok a => simp [bind, Except.bind]

theorem labels_collapse (tsb : Nat) :
    TSB_GET_ABR tsb < 4 ∧ TSB_GET_TPF tsb < 4 ∧
    ABRS tsb = (if TSB_GET_ABR tsb = 0 then "0.5 back + 0.5 poly" else "Invalid") ∧
    TPFS tsb = (if TSB_GET_TPF tsb = 0 then "4bit" else "Invalid") := by
  have ha : TSB_GET_ABR tsb < 4 := by rw [TSB_GET_ABR_eq]; omega
  have ht : TSB_GET_TPF tsb < 4 := by rw [TSB_GET_TPF_eq]; omega
  refine ⟨ha, ht, ?_, ?_⟩
  · unfold ABRS
    generalize TSB_GET_ABR tsb = c at ha
    interval_cases c <;> decide
  · unfold TPFS
    generalize TSB_GET_TPF tsb = d at ht
    interval_cases d <;> decide

theorem decodeTriangleNonlitTextured_ok (buf : Buffer) (vertices data : Nat) (shape : Shape)
    (h : decodeTriangleNonlitTextured buf vertices data = .ok shape) :
    ∃ cba tsb uv0 uv1 uv2 rgb v0 v1 v2,
      readU16 buf (data + 2) = .ok cba ∧ readU16 buf (data + 6) = .ok tsb ∧
      shape = .triangleNonlitTextured uv0 uv1 uv2 (CBA_GET_CBX cba) (CBA_GET_CBY cba)
        (TSB_GET_TPAGE tsb) (ABRS tsb) (TPFS tsb) rgb v0 v1 v2 := by
  unfold decodeTriangleNonlitTextured at h
  simp only [bind_eq_ok] at h
  obtain ⟨i0, _, i1, _, i2, _, cba, hc, tsb, ht, uv0, _, uv1, _, uv2, _, rgb, _, v0, _, v1, _,
    v2, _, hs⟩ := h
  injection hs with hs
  exact ⟨cba, tsb, uv0, uv1, uv2, rgb, v0, v1, v2, hc, ht, hs.symm⟩

/-- C17: the blend-mode label is "0.5 back + 0.5 poly" for code 0 and
"Invalid" for the codes 1, 2, 3; the colour-depth label is "4bit" for code 0
and "Invalid" for the codes 1, 2, 3; and these are the labels the textured
non-lit triangle arm prints for the `tsb` word it reads. -/
theorem C17_labels (tsb : Nat) :
    (TSB_GET_ABR tsb < 4 ∧ TSB_GET_TPF tsb < 4 ∧
      ABRS tsb = (if TSB_GET_ABR tsb = 0 then "0.5 back + 0.5 poly" else "Invalid") ∧
      TPFS tsb = (if TSB_GET_TPF tsb = 0 then "4bit" else "Invalid")) ∧
    (∀ (buf : Buffer) (vertices data : Nat) (shape : Shape),
      readU16 buf (data + 6) = .ok tsb →
      decodeTriangleNonlitTextured buf vertices data = .ok shape →
      ∃ uv0 uv1 uv2 cbx cby tpage rgb v0 v1 v2,
        shape = .triangleNonlitTextured uv0 uv1 uv2 cbx cby tpage
          (if TSB_GET_ABR tsb = 0 then "0.5 back + 0.5 poly" else "Invalid")
          (if TSB_GET_TPF tsb = 0 then "4bit" else "Invalid") rgb v0 v1 v2) := by
  have hl := labels_collapse tsb
  refine ⟨hl, ?_⟩
  intro buf vertices data shape ht h
  obtain ⟨cba, tsb2, uv0, uv1, uv2, rgb, v0, v1, v2, _, ht2, hs⟩ :=
    decodeTriangleNonlitTextured_ok buf vertices data shape h
  rw [ht] at ht2
  injection ht2 with ht2
  subst ht2
  rw [hl.2.2.1, hl.2.2.2] at hs
  exact ⟨uv0, uv1, uv2, _, _, _, rgb, v0, v1, v2, hs⟩

/-- C16: for `clutY = 3` and `clutX / 16 = 5` the documented word is
`3 * 64 + 5 = 0xC5`; the extractors give `CBX = 0` and `CBY = 197` instead of
5 and 3, and the textured triangle of `texturedFile`, whose `cba` is `0xC5`,
is printed with CLUT position `0, 197`. -/
theorem C16_clut_position_swapped :
    3 < 512 ∧ 5 < 64 ∧ 3 * 64 + 5 = 0xC5 ∧
    CBA_GET_CBX (3 * 64 + 5) = 0 ∧ CBA_GET_CBY (3 * 64 + 5) = 197 ∧
    decode texturedFile = .ok ⟨0, 1, [⟨1, 0, 3, 0, 1, [⟨1, true, ⟨7, 6, 1, 0x25⟩,
      .triangleNonlitTextured (10, 11) (20, 21) (30, 31) 0 197 3 "Invalid" "Invalid" ⟨1, 2, 3⟩
        ⟨1, 2, 3⟩ ⟨-1, 0, 256⟩ ⟨4, 5, 6⟩⟩]⟩]⟩ := by
  decide

/-- C19: the header `(flag = 1, mode = 0x3F)` has bit 5 of `mode` set, is
reported as a polygon, and is dispatched to the line arm (the record of
`collisionFile`); the header `(flag = 0x20, mode = 0x00)` has bit 5 clear and
is dispatched to the flat triangle arm. -/
theorem C19_polarity_disagrees :
    IS_PRIM_POLYGON ⟨3, 2, 1, 0x3F⟩ = 1 ∧ dispatch ⟨3, 2, 1, 0x3F⟩ = .lineFlat ∧
    decodePrimitiveAt collisionFile 40 56 56 0 =
      .ok ⟨1, true, ⟨3, 2, 1, 0x3F⟩, .line ⟨40, 50, 60⟩ ⟨1, 2, 3⟩ ⟨4, 5, 6⟩⟩ ∧
    IS_PRIM_POLYGON ⟨4, 3, 0x20, 0x00⟩ = 0 ∧ dispatch ⟨4, 3, 0x20, 0x00⟩ = .triangleFlat := by
  decide

theorem HASH_PRIMITIVE_ATTRIBS_of_lt (flag mode : Nat) (hf : flag < 256) (hm : mode < 256) :
    HASH_PRIMITIVE_ATTRIBS flag mode = 0x65 * (flag + mode) := by
  unfold HASH_PRIMITIVE_ATTRIBS
  norm_num
  omega

theorem dispatch_of_lt (ph : TmdPrimitiveHeader) (hf : ph.flag < 256) (hm : ph.mode < 256) :
    dispatch ph =
      if ph.flag + ph.mode = 0x20 then .triangleFlat
      else if ph.flag + ph.mode = 0x30 then .triangleGouraud
      else if ph.flag + ph.mode = 0x40 ∨ ph.flag + ph.mode = 0x41 then .lineFlat
      else if ph.flag + ph.mode = 0x22 then .triangleNonlit
      else if ph.flag + ph.mode = 0x26 then .triangleNonlitTextured
      else .unknown := by
  unfold dispatch
  simp only [HASH_PRIMITIVE_ATTRIBS_of_lt ph.flag ph.mode hf hm,
    HASH_PRIMITIVE_ATTRIBS_of_lt 0 0x20 (by decide) (by decide),
    HASH_PRIMITIVE_ATTRIBS_of_lt 0 0x30 (by decide) (by decide),
    HASH_PRIMITIVE_ATTRIBS_of_lt 0 0x40 (by decide) (by decide),
    HASH_PRIMITIVE_ATTRIBS_of_lt 1 0x40 (by decide) (by decide),
    HASH_PRIMITIVE_ATTRIBS_of_lt 1 0x21 (by decide) (by decide),
    HASH_PRIMITIVE_ATTRIBS_of_lt 1 0x25 (by decide) (by decide)]
  have e1 : (0x65 * (ph.flag + ph.mode) = 0x65 * (0 + 0x20)) ↔ ph.flag + ph.mode = 0x20 := by omega
  have e2 : (0x65 * (ph.flag + ph.mode) = 0x65 * (0 + 0x30)) ↔ ph.flag + ph.mode = 0x30 := by omega
  have e3 : (0x65 * (ph.flag + ph.mode) = 0x65 * (0 + 0x40)) ↔ ph.flag + ph.mode = 0x40 := by omega
  have e4 : (0x65 * (ph.flag + ph.mode) = 0x65 * (1 + 0x40)) ↔ ph.flag + ph.mode = 0x41 := by omega
  have e5 : (0x65 * (ph.flag + ph.mode) = 0x65 * (1 + 0x21)) ↔ ph.flag + ph.mode = 0x22 := by omega
  have e6 : (0x65 * (ph.flag + ph.mode) = 0x65 * (1 + 0x25)) ↔ ph.flag + ph.mode = 0x26 := by omega
  simp only [e1, e2, e3, e4, e5, e6]

/-- C18: for `flag`, `mode`, `flag2`, `mode2` below 256 the two hashes are equal
exactly when the sums `flag + mode` and `flag2 + mode2` are equal, the `u32`
sum does not overflow, and the arm taken is flat triangle iff the sum is
`0x20`, Gouraud iff `0x30`, line iff `0x40` or `0x41`, flat non-lit iff
`0x22`, textured non-lit iff `0x26`, and `default` for every other sum. -/
theorem C18_dispatch_on_sum (olen ilen flag mode flag2 mode2 : Nat)
    (hf : flag < 256) (hm : mode < 256) (hf2 : flag2 < 256) (hm2 : mode2 < 256) :
    (HASH_PRIMITIVE_ATTRIBS flag mode = HASH_PRIMITIVE_ATTRIBS flag2 mode2 ↔
      flag + mode = flag2 + mode2) ∧
    (flag % 2 ^ 32) * 0x65 + (mode % 2 ^ 32) * 0x65 < 2 ^ 32 ∧
    (dispatch ⟨olen, ilen, flag, mode⟩ = .triangleFlat ↔ flag + mode = 0x20) ∧
    (dispatch ⟨olen, ilen, flag, mode⟩ = .triangleGouraud ↔ flag + mode = 0x30) ∧
    (dispatch ⟨olen, ilen, flag, mode⟩ = .lineFlat ↔ flag + mode = 0x40 ∨ flag + mode = 0x41) ∧
    (dispatch ⟨olen, ilen, flag, mode⟩ = .triangleNonlit ↔ flag + mode = 0x22) ∧
    (dispatch ⟨olen, ilen, flag, mode⟩ = .triangleNonlitTextured ↔ flag + mode = 0x26) ∧
    (dispatch ⟨olen, ilen, flag, mode⟩ = .unknown ↔
      flag + mode ≠ 0x20 ∧ flag + mode ≠ 0x30 ∧ flag + mode ≠ 0x40 ∧ flag + mode ≠ 0x41 ∧
        flag + mode ≠ 0x22 ∧ flag + mode ≠ 0x26) := by
  refine ⟨?_, ?_, ?_⟩
  · rw [HASH_PRIMITIVE_ATTRIBS_of_lt flag mode hf hm,
      HASH_PRIMITIVE_ATTRIBS_of_lt flag2 mode2 hf2 hm2]
    omega
  · norm_num
    omega
  · rw [dispatch_of_lt ⟨olen, ilen, flag, mode⟩ hf hm]
    dsimp only
    split_ifs <;> simp <;> omega

/-- C18 at the colliding pairs `(1, 0x3F)` and `(0, 0x40)`. -/
theorem C18_dispatch_on_sum_witness :
    (HASH_PRIMITIVE_ATTRIBS 1 0x3F = HASH_PRIMITIVE_ATTRIBS 0 0x40 ↔ 1 + 0x3F = 0 + 0x40) ∧
    (1 % 2 ^ 32) * 0x65 + (0x3F % 2 ^ 32) * 0x65 < 2 ^ 32 ∧
    (dispatch ⟨3, 2, 1, 0x3F⟩ = .triangleFlat ↔ 1 + 0x3F = 0x20) ∧
    (dispatch ⟨3, 2, 1, 0x3F⟩ = .triangleGouraud ↔ 1 + 0x3F = 0x30) ∧
    (dispatch ⟨3, 2, 1, 0x3F⟩ = .lineFlat ↔ 1 + 0x3F = 0x40 ∨ 1 + 0x3F = 0x41) ∧
    (dispatch ⟨3, 2, 1, 0x3F⟩ = .triangleNonlit ↔ 1 + 0x3F = 0x22) ∧
    (dispatch ⟨3, 2, 1, 0x3F⟩ = .triangleNonlitTextured ↔ 1 + 0x3F = 0x26) ∧
    (dispatch ⟨3, 2, 1, 0x3F⟩ = .unknown ↔
      1 + 0x3F ≠ 0x20 ∧ 1 + 0x3F ≠ 0x30 ∧ 1 + 0x3F ≠ 0x40 ∧ 1 + 0x3F ≠ 0x41 ∧
        1 + 0x3F ≠ 0x22 ∧ 1 + 0x3F ≠ 0x26) :=
  C18_dispatch_on_sum 3 2 1 0x3F 0 0x40 (by decide) (by decide) (by decide) (by decide)

/-! ## Progress of the walk -/

theorem readU8_lt (buf : Buffer) (a b : Nat) (h : readU8 buf a = .ok b) : b < 256 := by
  unfold readU8 at h
  split at h
  · injection h with h
    omega
  · cases h

theorem readPrimitiveHeader_lt (buf : Buffer) (a : Nat) (ph : TmdPrimitiveHeader)
    (h : readPrimitiveHeader buf a = .ok ph) :
    ph.olen < 256 ∧ ph.ilen < 256 ∧ ph.flag < 256 ∧ ph.mode < 256 := by
  unfold readPrimitiveHeader at h
  simp only [bind_eq_ok] at h
  obtain ⟨o, ho, i, hi, f, hf, m, hm, hp⟩ := h
  injection hp with hp
  subst hp
  exact ⟨readU8_lt _ _ _ ho, readU8_lt _ _ _ hi, readU8_lt _ _ _ hf, readU8_lt _ _ _ hm⟩

theorem recordSize_sum_mod (entries : List PrimitiveEntry) :
    (entries.map recordSize).sum % 4 = 0 := by
  induction entries with
  | nil => rfl
  | cons e es ih =>
    simp only [List.map_cons, List.sum_cons, recordSize] at ih ⊢
    omega

theorem recordSize_prefix_succ (entries : List PrimitiveEntry) (k : Nat) (e : PrimitiveEntry)
    (h : entries[k]? = some e) :
    ((entries.take (k + 1)).map recordSize).sum =
      ((entries.take k).map recordSize).sum + recordSize e := by
  rw [List.take_succ, h]
  simp

theorem recordSize_prefix_lt (entries : List PrimitiveEntry) (k l : Nat) (hkl : k < l)
    (hl : l ≤ entries.length) :
    ((entries.take k).map recordSize).sum < ((entries.take l).map recordSize).sum := by
  induction l with
  | zero => omega
  | succ n ih =>
    have hn : n < entries.length := by omega
    have he : entries[n]? = some entries[n] := List.getElem?_eq_getElem hn
    rw [recordSize_prefix_succ entries n _ he]
    have h4 : 4 ≤ recordSize entries[n] := by unfold recordSize; omega
    by_cases hk : k = n
    · subst hk
      omega
    · have := ih (by omega) (by omega)
      omega

/-- C20: in a completed walk over an object's primitives, the header of
entry `k` is read at `12 + primitivesOffset` plus the sizes of the entries
before it, that distance is a multiple of 4, the next cursor is the advance
of this one, namely this one plus `4 + 4 * ilen`, a multiple of 4 between 4
and 1024; the cursors of two different iterations differ (the later one is
larger) and the final cursor is the start plus all sizes.  For any header
read at any cursor the advance has the same properties, whether or not the
walk completes. -/
theorem C20_walk_progress (buf : Buffer) (objectHeader : TmdObjectHeader)
    (entries : List PrimitiveEntry) (final : Nat)
    (h : walkPrimitives buf (verticesAddr objectHeader) (normalsAddr objectHeader)
      objectHeader.primitiveCount 0 (primitiveSectionStart objectHeader) = .ok (entries, final)) :
    (∀ (k : Nat) (e : PrimitiveEntry), entries[k]? = some e →
      readPrimitiveHeader buf
          (12 + objectHeader.primitivesOffset + ((entries.take k).map recordSize).sum) =
        .ok e.header ∧
      (12 + objectHeader.primitivesOffset + ((entries.take k).map recordSize).sum -
        (12 + objectHeader.primitivesOffset)) % 4 = 0 ∧
      12 + objectHeader.primitivesOffset + ((entries.take (k + 1)).map recordSize).sum =
        advance (12 + objectHeader.primitivesOffset + ((entries.take k).map recordSize).sum)
          e.header ∧
      advance (12 + objectHeader.primitivesOffset + ((entries.take k).map recordSize).sum)
          e.header =
        12 + objectHeader.primitivesOffset + ((entries.take k).map recordSize).sum +
          (4 + 4 * e.header.ilen) ∧
      4 ≤ 4 + 4 * e.header.ilen ∧ 4 + 4 * e.header.ilen ≤ 1024 ∧
      (4 + 4 * e.header.ilen) % 4 = 0) ∧
    (∀ k l : Nat, k < l → l ≤ entries.length →
      12 + objectHeader.primitivesOffset + ((entries.take k).map recordSize).sum <
        12 + objectHeader.primitivesOffset + ((entries.take l).map recordSize).sum) ∧
    final =
      12 + objectHeader.primitivesOffset + ((entries.take entries.length).map recordSize).sum ∧
    (∀ (cursor : Nat) (primHeader : TmdPrimitiveHeader),
      readPrimitiveHeader buf cursor = .ok primHeader →
        advance cursor primHeader = cursor + (4 + 4 * primHeader.ilen) ∧
        4 ≤ 4 + 4 * primHeader.ilen ∧ 4 + 4 * primHeader.ilen ≤ 1024 ∧
        (4 + 4 * primHeader.ilen) % 4 = 0 ∧ cursor < advance cursor primHeader) := by
  rw [walkPrimitives_iff] at h
  simp only [primitiveSectionStart, sizeofFileHeader, Nat.zero_add] at h
  obtain ⟨_, hfin, hdec⟩ := h
  refine ⟨?_, ?_, ?_, ?_⟩
  · intro k e hk
    have hh := decodePrimitiveAt_header _ _ _ _ _ _ (hdec k e hk)
    have hlt := (readPrimitiveHeader_lt _ _ _ hh).2.1
    have hmod := recordSize_sum_mod (entries.take k)
    refine ⟨hh, by omega, ?_, ?_, by omega, by omega, by omega⟩
    · rw [recordSize_prefix_succ entries k e hk]
      simp only [advance, sizeofPrimitiveHeader, recordSize]
      omega
    · simp only [advance, sizeofPrimitiveHeader]
      omega
  · intro k l hkl hl
    have := recordSize_prefix_lt entries k l hkl hl
    omega
  · rw [List.take_length]
    exact hfin
  · intro cursor primHeader hp
    have hlt := (readPrimitiveHeader_lt _ _ _ hp).2.1
    simp only [advance, sizeofPrimitiveHeader]
    omega

/-- C20 at the walk over `threeRecordFile`: the cursor before the first
iteration is below the cursor before the third. -/
theorem C20_walk_progress_witness :
    12 + 52 + ((threeRecordEntries.take 0).map recordSize).sum <
      12 + 52 + ((threeRecordEntries.take 2).map recordSize).sum :=
  (C20_walk_progress threeRecordFile ⟨28, 3, 52, 0, 52, 3, 0⟩ threeRecordEntries 100
    (by decide)).2.1 0 2 (by decide) (by decide)

end Tmd
